import Mathlib

/-!
Verification development for the proto-generation pipeline
(`scripts/build-proto.mjs`) and the model-output sanitizer module
(`sanitizeAssistantText` / `sanitizeFileContent`).

The sanitizer is embedded character-by-character over `List Char`,
mirroring the JavaScript regular-expression replacements of the source:
each regex of the source becomes an explicit scanning function with the
same anchoring, greediness and case-sensitivity.  JS strings are modelled
as `String` (Lean strings), with `String.data`/`List Char` as the working
representation.  A JS string is falsy exactly when it is empty, so the
`if (!raw)` guards become `if raw = ""`.
-/

/-- Characters matched by the JavaScript `\s` class (whitespace), as used
by the sanitizer's regexes and by `String.prototype.trim`. -/
def jsWhitespaceChars : List Char :=
  ['\t', '\n', '\x0b', '\x0c', '\r', ' ',
   '\u00a0', '\u1680',
   '\u2000', '\u2001', '\u2002', '\u2003', '\u2004', '\u2005',
   '\u2006', '\u2007', '\u2008', '\u2009', '\u200a',
   '\u2028', '\u2029', '\u202f', '\u205f', '\u3000', '\ufeff']

/-- Decision procedure for the JS `\s` character class. -/
def jsWhitespace (c : Char) : Bool :=
  jsWhitespaceChars.contains c

/-- Characters matched by the JS `\w` class: `[A-Za-z0-9_]`. -/
def jsWordChar (c : Char) : Bool :=
  ('a' ≤ c && c ≤ 'z') || ('A' ≤ c && c ≤ 'Z') || ('0' ≤ c && c ≤ '9') || c = '_'

/-- Prefix test over character lists; when `ci` is set the text character is
case-folded with `Char.toLower` before comparison (patterns are stored in
lower case), mirroring a JS regex with the `i` flag. -/
def startsWithAux (ci : Bool) : List Char → List Char → Bool
  | [], _ => true
  | _ :: _, [] => false
  | p :: ps, c :: cs => (if ci then c.toLower = p else c = p) && startsWithAux ci ps cs

/-- Index of the first position of `t` at which `pat` is a prefix
(`String.prototype.indexOf`, lifted to an `Option`). -/
def indexOfPat (ci : Bool) (pat : List Char) : List Char → Option Nat
  | [] => if startsWithAux ci pat [] then some 0 else none
  | c :: rest =>
    if startsWithAux ci pat (c :: rest) then some 0
    else (indexOfPat ci pat rest).map (· + 1)

/-- Index of the last position of `t` at which `pat` is a prefix
(`String.prototype.lastIndexOf`, lifted to an `Option`). -/
def lastIndexOfPat (ci : Bool) (pat : List Char) : List Char → Option Nat
  | [] => if startsWithAux ci pat [] then some 0 else none
  | c :: rest =>
    match lastIndexOfPat ci pat rest with
    | some i => some (i + 1)
    | none => if startsWithAux ci pat (c :: rest) then some 0 else none

/-- Occurrence test: does `pat` occur (as a contiguous block) anywhere in `t`? -/
def containsPat (ci : Bool) (pat : List Char) : List Char → Bool
  | [] => startsWithAux ci pat []
  | c :: rest => startsWithAux ci pat (c :: rest) || containsPat ci pat rest

/-- JS `String.prototype.trim`: drop `\s` characters from both ends. -/
def jsTrim (t : List Char) : List Char :=
  ((t.dropWhile jsWhitespace).reverse.dropWhile jsWhitespace).reverse

/-- The channel words of the alternation
`analysis|assistant|user|system|thinking|deliberate|coT|im_start|im_end|channel`
appearing (case-insensitively) in `LEADING_PATTERNS[0]` and in the last
replacement of `stripInlineChatMl`; stored lower-case since all the uses
carry the `i` flag. -/
def channelWords : List (List Char) :=
  ["analysis".data, "assistant".data, "user".data, "system".data, "thinking".data,
   "deliberate".data, "cot".data, "im_start".data, "im_end".data, "channel".data]

/-- Match one token of the shape `<|word|>` (case-insensitive) at the head of
`t`, for `word` drawn from a word list; returns the matched length.  At most
one alternative can match at a given position because the words are distinct
and delimited by the literal text. -/
def matchTokenIn : List (List Char) → List Char → Option Nat
  | [], _ => none
  | w :: ws, t =>
    if startsWithAux true ('<' :: '|' :: (w ++ ['|', '>'])) t then some (w.length + 4)
    else matchTokenIn ws t

/-- Does a channel token `<|word|>` occur anywhere in `t`? -/
def containsChannelToken : List Char → Bool
  | [] => false
  | c :: rest => (matchTokenIn channelWords (c :: rest)).isSome || containsChannelToken rest

/-- Greedy match of `LEADING_PATTERNS[0]`, i.e. `^(?:<\|(?:…)\|>\s*)+` with
flag `i`: repeatedly consume a channel token followed by a run of whitespace,
starting at the head; the part of `t` after the match is returned (replacing
the match by the empty string).  The fuel argument bounds the recursion; each
successful step consumes at least four characters, so `t.length` fuel always
suffices. -/
def stripChannelRunF : Nat → List Char → List Char
  | 0, t => t
  | Nat.succ fuel, t =>
    match matchTokenIn channelWords t with
    | none => t
    | some k => stripChannelRunF fuel ((t.drop k).dropWhile jsWhitespace)

/-- Replacement of `LEADING_PATTERNS[0]` by the empty string (anchored,
so `String.replace` touches at most the leading match). -/
def replaceLeadingChannelRun (t : List Char) : List Char :=
  stripChannelRunF t.length t

/-- The literal `<|start_header_id|>` (patterns lower-case, matched CI). -/
def startHeaderTok : List Char := "<|start_header_id|>".data

/-- The literal `<|end_header_id|>`. -/
def endHeaderTok : List Char := "<|end_header_id|>".data

/-- Replacement of `LEADING_PATTERNS[1]`, i.e.
`^<\|start_header_id\|>[\s\S]*?<\|end_header_id\|>\s*` with flag `i`: if the
start marker sits at the head, consume lazily up to the first end marker and
then a greedy whitespace run; otherwise the text is unchanged. -/
def replaceLeadingHeaderBlock (t : List Char) : List Char :=
  if startsWithAux true startHeaderTok t then
    let rest := t.drop startHeaderTok.length
    match indexOfPat true endHeaderTok rest with
    | some i => (rest.drop (i + endHeaderTok.length)).dropWhile jsWhitespace
    | none => t
  else t

/-- Match of `LEADING_PATTERNS[2]`, i.e. `^\s*(?:analysis|thinking)\s*>\s*`
with flag `i`; returns the remainder of `t` after the match when it succeeds.
The whitespace runs are greedy; no backtracking can arise because `>` and the
keyword letters are not whitespace. -/
def matchAnalysisPrompt (t : List Char) : Option (List Char) :=
  let t1 := t.dropWhile jsWhitespace
  let kw :=
    if startsWithAux true "analysis".data t1 then some ("analysis".length)
    else if startsWithAux true "thinking".data t1 then some ("thinking".length)
    else none
  match kw with
  | none => none
  | some k =>
    match (t1.drop k).dropWhile jsWhitespace with
    | '>' :: rest => some (rest.dropWhile jsWhitespace)
    | _ => none

/-- Replacement of `LEADING_PATTERNS[2]` by the empty string. -/
def replaceLeadingAnalysisPrompt (t : List Char) : List Char :=
  (matchAnalysisPrompt t).getD t

/-- One pass of the `for`-loop body of `stripLeadingArtifacts`: the three
leading-pattern replacements applied in source order. -/
def stripLeadingOnce (t : List Char) : List Char :=
  replaceLeadingAnalysisPrompt (replaceLeadingHeaderBlock (replaceLeadingChannelRun t))

/-- The `while (matched)` loop of `stripLeadingArtifacts`: repeat the pass
until no pattern changed the text.  Every effective pass deletes at least one
character, so `t.length + 1` fuel always reaches the fixpoint. -/
def stripLeadingLoop : Nat → List Char → List Char
  | 0, t => t
  | Nat.succ fuel, t =>
    let t1 := stripLeadingOnce t
    if t1 = t then t else stripLeadingLoop fuel t1

/-- Function `stripLeadingArtifacts` of the source: remove all occurrences of the known
leading artifact patterns at the start of the text. -/
def stripLeadingArtifacts (t : List Char) : List Char :=
  stripLeadingLoop (t.length + 1) t

/-- The literal `<thinking>` (this pair of regexes is case-sensitive). -/
def thinkingOpenTok : List Char := "<thinking>".data

/-- The literal `</thinking>`. -/
def thinkingCloseTok : List Char := "</thinking>".data

/-- Consume at most one whitespace character (the `\s?` of the pattern). -/
def dropOneWs : List Char → List Char
  | [] => []
  | c :: rest => if jsWhitespace c then rest else c :: rest

/-- Global replacement `text.replace(/<thinking>\s?/g, "")`: left-to-right
non-overlapping scan; scanning resumes after each removed match, as JS
`String.replace` does (newly adjacent text is not rescanned). -/
def stripThinkOpenF : Nat → List Char → List Char
  | 0, t => t
  | Nat.succ fuel, t =>
    match t with
    | [] => []
    | c :: rest =>
      if startsWithAux false thinkingOpenTok (c :: rest) then
        stripThinkOpenF fuel (dropOneWs ((c :: rest).drop thinkingOpenTok.length))
      else c :: stripThinkOpenF fuel rest

/-- Global replacement `.replace(/\s?<\/thinking>/g, "")`; at each position
the greedy `\s?` first tries to take one whitespace character before the
closing tag. -/
def stripThinkCloseF : Nat → List Char → List Char
  | 0, t => t
  | Nat.succ fuel, t =>
    match t with
    | [] => []
    | c :: rest =>
      if jsWhitespace c && startsWithAux false thinkingCloseTok rest then
        stripThinkCloseF fuel (rest.drop thinkingCloseTok.length)
      else if startsWithAux false thinkingCloseTok (c :: rest) then
        stripThinkCloseF fuel ((c :: rest).drop thinkingCloseTok.length)
      else c :: stripThinkCloseF fuel rest

/-- Function `stripThinkingTags` of the source. -/
def stripThinkingTags (t : List Char) : List Char :=
  stripThinkCloseF t.length (stripThinkOpenF t.length t)

/-- The literal `<|im_start|>`. -/
def imStartTok : List Char := "<|im_start|>".data

/-- The literal `<|im_end|>`. -/
def imEndTok : List Char := "<|im_end|>".data

/-- Global replacement `.replace(/<\|im_start\|>\s*\w+\s*/gi, "")`: token,
greedy whitespace, at least one word character, greedy whitespace.  The
classes `\s` and `\w` are disjoint so the greedy runs never backtrack; if no
word character follows, the match at this position fails and scanning resumes
one character later. -/
def stripImStartF : Nat → List Char → List Char
  | 0, t => t
  | Nat.succ fuel, t =>
    match t with
    | [] => []
    | c :: rest =>
      if startsWithAux true imStartTok (c :: rest) then
        let t1 := (((c :: rest).drop imStartTok.length).dropWhile jsWhitespace)
        let w := t1.takeWhile jsWordChar
        if w.isEmpty then c :: stripImStartF fuel rest
        else stripImStartF fuel ((t1.drop w.length).dropWhile jsWhitespace)
      else c :: stripImStartF fuel rest

/-- Global replacement `.replace(/<\|im_end\|>/gi, "")`. -/
def stripImEndF : Nat → List Char → List Char
  | 0, t => t
  | Nat.succ fuel, t =>
    match t with
    | [] => []
    | c :: rest =>
      if startsWithAux true imEndTok (c :: rest) then
        stripImEndF fuel ((c :: rest).drop imEndTok.length)
      else c :: stripImEndF fuel rest

/-- Global replacement of the lingering channel tokens
`.replace(/<\|(?:analysis|…|channel)\|>/gi, "")`. -/
def stripChannelTokensF : Nat → List Char → List Char
  | 0, t => t
  | Nat.succ fuel, t =>
    match t with
    | [] => []
    | c :: rest =>
      match matchTokenIn channelWords (c :: rest) with
      | some k => stripChannelTokensF fuel ((c :: rest).drop k)
      | none => c :: stripChannelTokensF fuel rest

/-- Function `stripInlineChatMl` of the source: the three global replacements in
source order. -/
def stripInlineChatMl (t : List Char) : List Char :=
  let a := stripImStartF t.length t
  let b := stripImEndF a.length a
  stripChannelTokensF b.length b

/-- Character-list core of `sanitizeAssistantText` (the composition applied
to a non-empty input). -/
def sanitizeAssistantTextL (t : List Char) : List Char :=
  stripInlineChatMl (stripThinkingTags (stripLeadingArtifacts t))

/-- Function `sanitizeAssistantText` of the source.  A JS string is falsy exactly when
it is empty, so `if (!raw) return raw` becomes the emptiness guard. -/
def sanitizeAssistantText (raw : String) : String :=
  if raw = "" then raw
  else String.mk (sanitizeAssistantTextL raw.data)

/-- The literal `<!doctype` (searched on the lower-cased text). -/
def doctypeTok : List Char := "<!doctype".data

/-- The literal `<html`. -/
def htmlOpenTok : List Char := "<html".data

/-- The literal `</html>`. -/
def htmlCloseTok : List Char := "</html>".data

/-- JS `Math.max` on indices where `-1` encodes absence: `none` only when
both are absent, otherwise the larger present index. -/
def jsMaxIdx : Option Nat → Option Nat → Option Nat
  | none, none => none
  | some i, none => some i
  | none, some j => some j
  | some i, some j => some (max i j)

/-- Function `extractHtmlDocument` of the source: on the lower-cased text take
`startIdx = Math.max(indexOf "<!doctype", indexOf "<html")` and
`endIdx = lastIndexOf "</html>"`; when both exist and `endIdx > startIdx`,
return the trimmed slice of the original text from `startIdx` to the end of
the closing tag.  Lower-casing is modelled per character, which preserves
indices (as the source assumes). -/
def extractHtmlDocument (t : List Char) : Option (List Char) :=
  let lower := t.map Char.toLower
  let startIdx := jsMaxIdx (indexOfPat false doctypeTok lower)
                           (indexOfPat false htmlOpenTok lower)
  let endIdx := lastIndexOfPat false htmlCloseTok lower
  match startIdx, endIdx with
  | some i, some j =>
    if i < j then some (jsTrim ((t.drop i).take (j + htmlCloseTok.length - i))) else none
  | _, _ => none

/-- A backtick character, written by code point. -/
def backtickChar : Char := Char.ofNat 96

/-- The three-backtick fence delimiter. -/
def fenceTok : List Char := List.replicate 3 backtickChar

/-- Characters of the fence-label class `[a-z0-9_+-]` under flag `i`. -/
def fenceLangChar (c : Char) : Bool :=
  ('a' ≤ c && c ≤ 'z') || ('A' ≤ c && c ≤ 'Z') || ('0' ≤ c && c ≤ '9') ||
  c = '_' || c = '+' || c = '-'

/-- One attempted match of the fence regex body starting just after an
opening fence: greedy label run, then `\s*\n` (the greedy run backtracks to
the last newline of the whitespace run), then the lazy body up to the first
`\n` followed by a closing fence.  Returns `(label, body, rest-of-text)` on
success. -/
def tryFence (t : List Char) : Option (List Char × List Char × List Char) :=
  let lang := t.takeWhile fenceLangChar
  let afterLang := t.drop lang.length
  let wsRun := afterLang.takeWhile jsWhitespace
  match lastIndexOfPat false ['\n'] wsRun with
  | none => none
  | some k =>
    let afterHeader := afterLang.drop (k + 1)
    match indexOfPat false ('\n' :: fenceTok) afterHeader with
    | none => none
    | some b => some (lang, afterHeader.take b, afterHeader.drop (b + 1 + fenceTok.length))

/-- The repeated `fenceRe.exec` loop: scan left to right, collecting
non-overlapping `(label, body)` pairs; a failed attempt at an opening fence
resumes the scan one character later, exactly as the regex engine tries every
start position. -/
def scanFencesF : Nat → List Char → List (List Char × List Char)
  | 0, _ => []
  | Nat.succ fuel, t =>
    match t with
    | [] => []
    | c :: rest =>
      if startsWithAux false fenceTok (c :: rest) then
        match tryFence ((c :: rest).drop fenceTok.length) with
        | some (lang, body, remaining) => (lang, body) :: scanFencesF fuel remaining
        | none => scanFencesF fuel rest
      else scanFencesF fuel rest

/-- Longest-body fallback of `extractFencedCode`:
`blocks.reduce((a, b) => (b.body.length > a.length ? b.body : a), "")`. -/
def longestBody (blocks : List (List Char × List Char)) : List Char :=
  blocks.foldl (fun a b => if a.length < b.2.length then b.2 else a) []

/-- Function `extractFencedCode` of the source.  The captured label is lower-cased and
trimmed; when a (truthy, i.e. non-empty) expected language is supplied, the
first block whose label contains it is preferred, otherwise the longest body
wins; the returned body is trimmed.  `none` when no block matches. -/
def extractFencedCode (t : List Char) (expectedLanguage : Option (List Char)) :
    Option (List Char) :=
  let blocks := (scanFencesF t.length t).map
    (fun lb => (jsTrim (lb.1.map Char.toLower), lb.2))
  if blocks.isEmpty then none
  else
    let fallback := some (jsTrim (longestBody blocks))
    match expectedLanguage with
    | some el =>
      if el.isEmpty then fallback
      else
        match blocks.find? (fun b => containsPat false (el.map Char.toLower) b.1) with
        | some preferred => some (jsTrim preferred.2)
        | none => fallback
    | none => fallback

/-- Character-list core of `sanitizeFileContent` after the sanitize step: the
HTML document, when present and truthy, takes precedence; otherwise a truthy
fenced block; otherwise the text itself.  The `if (html)` / `if (fenced)`
truthiness tests of the source are emptiness tests on the JS strings. -/
def fileContentChoice (text : List Char) (el : Option (List Char)) : List Char :=
  let afterHtml :=
    match extractFencedCode text el with
    | some fenced => if fenced.isEmpty then text else fenced
    | none => text
  match extractHtmlDocument text with
  | some html => if html.isEmpty then afterHtml else html
  | none => afterHtml

/-- Function `sanitizeFileContent` of the source. -/
def sanitizeFileContent (raw : String) (expectedLanguage : Option String) : String :=
  if raw = "" then raw
  else
    let text := sanitizeAssistantTextL raw.data
    String.mk (fileContentChoice text (expectedLanguage.map String.data))

/-!
Model of `scripts/build-proto.mjs`.

The script is a shell pipeline: it deletes previously generated output,
locates a working `protoc` binary, invokes it (through the `ts-proto`
plugin) once per transport flavor plus once for the descriptor set, and then
runs two follow-up generators.  We embed it as a deterministic function of a
`BuildEnv` — the environment variables, the candidate `protoc` binaries, the
set of schema files found under `proto/`, and oracles describing the
behaviour of the external tools (whether each shelled-out command succeeds
and which files a successful command writes; a command that fails writes
nothing, and the follow-up generators are deterministic in the unchanged
schema).  The run produces a trace of effects (`Event`s) together with the
process outcome; `process.exit` aborts the rest of the pipeline.  Paths are
the repository-relative strings appearing in the script (`path.resolve` is
dropped), and a filesystem is a map from path to file contents.
-/

/-- Environment and external-tool oracles for one generation run. -/
structure BuildEnv where
  SKIP_PROTOS : String
  ALLOW_PROTO_FAILURE : String
  PROTOC_PATH : Option String
  bundledProtoc : Option String
  systemProtoc : Option String
  protocVersion : String → Option String
  appleSiliconBlocked : Bool
  tsProtoPlugin : String
  protoFiles : List String
  execOk : String → Bool
  tsProtocOutput : String → List (String × String)
  descriptorContent : String
  protobusOutput : List (String × String)
  hostBridgeOutput : List (String × String)

/-- Observable effects of the run, in order. -/
inductive Event where
  | rmrfE (p : String)
  | mkdirE (p : String)
  | execE (cmd : String)
  | writeE (p : String) (content : String)
  | errorLogE (msg : String)
  | protobusE
  | hostBridgeE
deriving DecidableEq

/-- Process outcome: normal return of `main`, or `process.exit code`. -/
inductive RunOutcome where
  | success
  | exit (code : Nat)
deriving DecidableEq

/-- The `protoc` candidates, in the order `locateProtoc` tries them:
`PROTOC_PATH` override, bundled `grpc-tools` binary, system `PATH`. -/
def protocCandidates (e : BuildEnv) : List String :=
  e.PROTOC_PATH.toList ++ e.bundledProtoc.toList ++ e.systemProtoc.toList

/-- Function `locateProtoc` of the source: the first candidate whose `--version` probe succeeds. -/
def locateProtoc (e : BuildEnv) : Option String :=
  (protocCandidates e).find? (fun c => (e.protocVersion c).isSome)

/-- Output directories of the script (repository-relative). -/
def TS_OUT_DIR : String := "src/shared/proto"

/-- The grpc-js flavor output directory. -/
def GRPC_JS_OUT_DIR : String := "src/generated/grpc-js"

/-- The nice-grpc flavor output directory. -/
def NICE_JS_OUT_DIR : String := "src/generated/nice-grpc"

/-- The descriptor output directory. -/
def DESCRIPTOR_OUT_DIR : String := "dist-standalone/proto"

/-- The single descriptor artifact `path.join(DESCRIPTOR_OUT_DIR, "descriptor_set.pb")`. -/
def descriptorFile : String := "dist-standalone/proto/descriptor_set.pb"

/-- The shared `ts-proto` options list. -/
def TS_PROTO_OPTIONS : List String :=
  ["env=node", "esModuleInterop=true", "outputServices=generic-definitions",
   "outputIndex=true", "useOptionals=none", "useDate=false"]

/-- JS `Array.prototype.join(sep)`. -/
def joinWith (sep : String) : List String → String
  | [] => ""
  | [a] => a
  | a :: b :: rest => a ++ sep ++ joinWith sep (b :: rest)

/-- Wrap an argument in double quotes, as the command templates do. -/
def quoteArg (s : String) : String := "\x22" ++ s ++ "\x22"

/-- The parts joined (with single spaces) into one `tsProtoc` command line.
The trailing space inside the `--ts_proto_opt` part reproduces the template
literal of the source. -/
def tsProtocCmdParts (e : BuildEnv) (pp outDir : String) (opts : List String) :
    List String :=
  [pp,
   "--proto_path=" ++ quoteArg "proto",
   "--plugin=protoc-gen-ts_proto=" ++ quoteArg e.tsProtoPlugin,
   "--ts_proto_out=" ++ quoteArg outDir,
   "--ts_proto_opt=" ++ joinWith "," opts ++ " "]
  ++ e.protoFiles.map quoteArg

/-- The full `tsProtoc` command string. -/
def tsProtocCmd (e : BuildEnv) (pp outDir : String) (opts : List String) : String :=
  joinWith " " (tsProtocCmdParts e pp outDir opts)

/-- The parts of the descriptor-set export command. -/
def descriptorCmdParts (e : BuildEnv) (pp : String) : List String :=
  [pp,
   "--proto_path=" ++ quoteArg "proto",
   "--descriptor_set_out=" ++ quoteArg descriptorFile,
   "--include_imports"]
  ++ e.protoFiles

/-- The full descriptor-set export command string. -/
def descriptorCmd (e : BuildEnv) (pp : String) : String :=
  joinWith " " (descriptorCmdParts e pp)

/-- One `tsProtoc` invocation: on success the command runs and the flavor's
files are written under `outDir`; on failure (`execSync` throws) the error is
logged together with the failed command and the process exits with code 1. -/
def tsProtocStep (e : BuildEnv) (pp outDir : String) (opts : List String) :
    List Event × RunOutcome :=
  let cmd := tsProtocCmd e pp outDir opts
  if e.execOk cmd then
    (Event.execE cmd ::
      (e.tsProtocOutput outDir).map (fun pc => Event.writeE (outDir ++ "/" ++ pc.1) pc.2),
     RunOutcome.success)
  else
    ([Event.execE cmd,
      Event.errorLogE ("Error generating TypeScript for proto files: Command failed: " ++ cmd)],
     RunOutcome.exit 1)

/-- The descriptor export step: `--descriptor_set_out` writes the single
artifact file on success; on failure the error is logged with the failed
command and the process exits with code 1. -/
def descriptorStep (e : BuildEnv) (pp : String) : List Event × RunOutcome :=
  let cmd := descriptorCmd e pp
  if e.execOk cmd then
    ([Event.execE cmd, Event.writeE descriptorFile e.descriptorContent], RunOutcome.success)
  else
    ([Event.execE cmd,
      Event.errorLogE ("Error generating descriptor set for proto file: Command failed: " ++ cmd)],
     RunOutcome.exit 1)

/-- The `mkdir -p` calls of `compileProtos` (no filesystem effect on files). -/
def mkdirEvents : List Event :=
  [Event.mkdirE TS_OUT_DIR, Event.mkdirE GRPC_JS_OUT_DIR,
   Event.mkdirE NICE_JS_OUT_DIR, Event.mkdirE DESCRIPTOR_OUT_DIR]

/-- Function `compileProtos` of the source: Apple-Silicon check, `protoc` resolution (exiting with
code 1 when nothing works unless `ALLOW_PROTO_FAILURE=1`, in which case the
whole generation is skipped), output-directory creation, the three flavored
`tsProtoc` invocations, and the descriptor export — each `execSync` failure
exits the process. -/
def compileProtosRun (e : BuildEnv) : List Event × RunOutcome :=
  if e.appleSiliconBlocked then ([], RunOutcome.exit 1)
  else
    match locateProtoc e with
    | none =>
      if e.ALLOW_PROTO_FAILURE = "1" then ([], RunOutcome.success)
      else ([], RunOutcome.exit 1)
    | some pp =>
      match tsProtocStep e pp TS_OUT_DIR TS_PROTO_OPTIONS with
      | (ev1, RunOutcome.exit c) => (mkdirEvents ++ ev1, RunOutcome.exit c)
      | (ev1, RunOutcome.success) =>
        match tsProtocStep e pp GRPC_JS_OUT_DIR ("outputServices=grpc-js" :: TS_PROTO_OPTIONS) with
        | (ev2, RunOutcome.exit c) => (mkdirEvents ++ ev1 ++ ev2, RunOutcome.exit c)
        | (ev2, RunOutcome.success) =>
          match tsProtocStep e pp NICE_JS_OUT_DIR
              ("outputServices=nice-grpc,useExactTypes=false" :: TS_PROTO_OPTIONS) with
          | (ev3, RunOutcome.exit c) => (mkdirEvents ++ ev1 ++ ev2 ++ ev3, RunOutcome.exit c)
          | (ev3, RunOutcome.success) =>
            match descriptorStep e pp with
            | (ev4, out) => (mkdirEvents ++ ev1 ++ ev2 ++ ev3 ++ ev4, out)

/-- The explicitly listed stale host-bridge files removed by `cleanup`. -/
def oldHostBridgeFiles : List String :=
  ["src/hosts/vscode/workspace/methods.ts", "src/hosts/vscode/workspace/index.ts",
   "src/hosts/vscode/diff/methods.ts", "src/hosts/vscode/diff/index.ts",
   "src/hosts/vscode/env/methods.ts", "src/hosts/vscode/env/index.ts",
   "src/hosts/vscode/window/methods.ts", "src/hosts/vscode/window/index.ts",
   "src/hosts/vscode/watch/methods.ts", "src/hosts/vscode/watch/index.ts",
   "src/hosts/vscode/uri/methods.ts", "src/hosts/vscode/uri/index.ts"]

/-- The explicitly listed stale protobus files removed by `cleanup`. -/
def oldProtobusFiles : List String :=
  ["src/core/controller/account/index.ts", "src/core/controller/account/methods.ts",
   "src/core/controller/browser/index.ts", "src/core/controller/browser/methods.ts",
   "src/core/controller/checkpoints/index.ts", "src/core/controller/checkpoints/methods.ts",
   "src/core/controller/file/index.ts", "src/core/controller/file/methods.ts",
   "src/core/controller/mcp/index.ts", "src/core/controller/mcp/methods.ts",
   "src/core/controller/models/index.ts", "src/core/controller/models/methods.ts",
   "src/core/controller/slash/index.ts", "src/core/controller/slash/methods.ts",
   "src/core/controller/state/index.ts", "src/core/controller/state/methods.ts",
   "src/core/controller/task/index.ts", "src/core/controller/task/methods.ts",
   "src/core/controller/ui/index.ts", "src/core/controller/ui/methods.ts",
   "src/core/controller/web/index.ts", "src/core/controller/web/methods.ts"]

/-- Every path passed to `rmrf` by `cleanup`, in order. -/
def cleanupPaths : List String :=
  [TS_OUT_DIR, "src/generated",
   "src/standalone/services/host-grpc-client.ts", "src/standalone/server-setup.ts",
   "src/hosts/vscode/host-grpc-service-config.ts", "src/core/controller/grpc-service-config.ts"]
  ++ oldHostBridgeFiles ++ oldProtobusFiles

/-- The trace of `cleanup`. -/
def cleanupEvents : List Event := cleanupPaths.map Event.rmrfE

/-- The trace of `generateProtoBusSetup`, which runs after a successful
compile; its written files are an oracle of the (unchanged) schema since the
generator itself lives outside this script. -/
def protobusEvents (e : BuildEnv) : List Event :=
  Event.protobusE :: e.protobusOutput.map (fun pc => Event.writeE pc.1 pc.2)

/-- The trace of `generateHostBridgeClient` (same modelling). -/
def hostBridgeEvents (e : BuildEnv) : List Event :=
  Event.hostBridgeE :: e.hostBridgeOutput.map (fun pc => Event.writeE pc.1 pc.2)

/-- Function `main` of the source: skip everything when `SKIP_PROTOS=1`; otherwise run `cleanup`,
`compileProtos`, and (if the process has not exited) the two follow-up
generators. -/
def mainRun (e : BuildEnv) : List Event × RunOutcome :=
  if e.SKIP_PROTOS = "1" then ([], RunOutcome.success)
  else
    match compileProtosRun e with
    | (ev, RunOutcome.exit c) => (cleanupEvents ++ ev, RunOutcome.exit c)
    | (ev, RunOutcome.success) =>
      (cleanupEvents ++ ev ++ protobusEvents e ++ hostBridgeEvents e, RunOutcome.success)

/-- A filesystem: path to contents of the file there, if any. -/
def FS : Type := String → Option String

/-- Prefix test on raw character lists (used for path containment). -/
def listPrefixOf : List Char → List Char → Bool
  | [], _ => true
  | _ :: _, [] => false
  | p :: ps, c :: cs => p = c && listPrefixOf ps cs

/-- Is path `q` equal to `p` or inside the directory `p`?  `rmrf p` removes
exactly the files `q` with `underPath p q`. -/
def underPath (p q : String) : Bool :=
  p = q || listPrefixOf (p ++ "/").data q.data

/-- Filesystem semantics of one event: `rmrf` removes a subtree, a write
creates or replaces one file; directory creation, command spawning, logging
and the generator markers do not change any file contents (the files written
by the generators appear as explicit write events). -/
def applyEvent (fs : FS) : Event → FS
  | Event.rmrfE p => fun q => if underPath p q then none else fs q
  | Event.writeE p c => fun q => if q = p then some c else fs q
  | _ => fs

/-- Filesystem semantics of a trace, left to right. -/
def applyEvents : List Event → FS → FS
  | [], fs => fs
  | ev :: rest, fs => applyEvents rest (applyEvent fs ev)

/-- The filesystem after one full run of the script. -/
def finalFS (e : BuildEnv) (fs : FS) : FS :=
  applyEvents (mainRun e).1 fs

/-!
Helper lemmas about traces, path containment and the final filesystem.
-/

/-- Appending traces composes their filesystem semantics. -/
theorem applyEvents_append (A B : List Event) (fs : FS) :
    applyEvents (A ++ B) fs = applyEvents B (applyEvents A fs) := by
  induction A generalizing fs with
  | nil => rfl
  | cons ev rest ih => simp [applyEvents, ih]

/-- Is `q` removed by some `rmrf` event of the trace? -/
def coversRm (A : List Event) (q : String) : Bool :=
  A.any fun ev =>
    match ev with
    | Event.rmrfE p => underPath p q
    | _ => false

/-- A trace consisting only of `rmrf` events maps `q` to `none` exactly when
some event covers it, and leaves it alone otherwise. -/
theorem applyEvents_rmrfOnly (A : List Event)
    (h : ∀ ev ∈ A, ∃ p, ev = Event.rmrfE p) (fs : FS) (q : String) :
    applyEvents A fs q = if coversRm A q then none else fs q := by
  induction A generalizing fs with
  | nil => simp [applyEvents, coversRm]
  | cons ev rest ih =>
    obtain ⟨p, rfl⟩ := h ev (List.mem_cons_self ev rest)
    have hrest : ∀ ev ∈ rest, ∃ p, ev = Event.rmrfE p :=
      fun ev hm => h ev (List.mem_cons_of_mem _ hm)
    have hcons : coversRm (Event.rmrfE p :: rest) q = (underPath p q || coversRm rest q) := by
      simp [coversRm, List.any_cons]
    show applyEvents rest (applyEvent fs (Event.rmrfE p)) q = _
    rw [ih hrest, hcons]
    cases hu : underPath p q <;> cases hcr : coversRm rest q <;> simp [applyEvent, hu, hcr]

/-- The content of the last write to `q` in a trace, if any. -/
def lastWrite : List Event → String → Option String
  | [], _ => none
  | ev :: rest, q =>
    match lastWrite rest q with
    | some c => some c
    | none =>
      match ev with
      | Event.writeE p c => if q = p then some c else none
      | _ => none

/-- A trace free of `rmrf` events. -/
def noRmrf (B : List Event) : Prop := ∀ p, Event.rmrfE p ∉ B

/-- On an `rmrf`-free trace the final value at `q` is the last write to `q`,
or the initial value when `q` is never written. -/
theorem applyEvents_noRmrf (B : List Event) (h : noRmrf B) (fs : FS) (q : String) :
    applyEvents B fs q =
      match lastWrite B q with
      | some c => some c
      | none => fs q := by
  induction B generalizing fs with
  | nil => simp [applyEvents, lastWrite]
  | cons ev rest ih =>
    have hrest : noRmrf rest := fun p hm => h p (List.mem_cons_of_mem _ hm)
    show applyEvents rest (applyEvent fs ev) q = _
    rw [ih hrest]
    cases hl : lastWrite rest q with
    | some c => simp [lastWrite, hl]
    | none =>
      cases ev with
      | rmrfE p => exact absurd (List.mem_cons_self _ _) (h p)
      | writeE p c =>
        by_cases hq : q = p
        · subst hq
          simp [lastWrite, hl, applyEvent]
        · simp [lastWrite, hl, applyEvent, hq]
      | mkdirE p => simp [lastWrite, hl, applyEvent]
      | execE c => simp [lastWrite, hl, applyEvent]
      | errorLogE m => simp [lastWrite, hl, applyEvent]
      | protobusE => simp [lastWrite, hl, applyEvent]
      | hostBridgeE => simp [lastWrite, hl, applyEvent]

/-- Last write over an appended trace. -/
theorem lastWrite_append (A B : List Event) (q : String) :
    lastWrite (A ++ B) q =
      match lastWrite B q with
      | some c => some c
      | none => lastWrite A q := by
  induction A with
  | nil => cases hl : lastWrite B q <;> simp [lastWrite, hl]
  | cons ev rest ih =>
    show lastWrite (ev :: (rest ++ B)) q = _
    cases ev <;>
      cases hl : lastWrite B q <;> cases hr : lastWrite rest q <;>
        simp [lastWrite, ih, hl, hr]

/-- A trace that never writes `q` has no last write there. -/
theorem lastWrite_eq_none (B : List Event) (q : String)
    (h : ∀ p c, Event.writeE p c ∈ B → q ≠ p) : lastWrite B q = none := by
  induction B with
  | nil => rfl
  | cons ev rest ih =>
    have hrest : ∀ p c, Event.writeE p c ∈ rest → q ≠ p :=
      fun p c hm => h p c (List.mem_cons_of_mem _ hm)
    cases ev with
    | writeE p c =>
      have hqp : q ≠ p := h p c (List.mem_cons_self _ _)
      simp [lastWrite, ih hrest, hqp]
    | rmrfE p => simp [lastWrite, ih hrest]
    | mkdirE p => simp [lastWrite, ih hrest]
    | execE c => simp [lastWrite, ih hrest]
    | errorLogE m => simp [lastWrite, ih hrest]
    | protobusE => simp [lastWrite, ih hrest]
    | hostBridgeE => simp [lastWrite, ih hrest]

/-- The post-cleanup part of the run's trace. -/
def postTrace (e : BuildEnv) : List Event :=
  match compileProtosRun e with
  | (ev, RunOutcome.exit _) => ev
  | (ev, RunOutcome.success) => ev ++ protobusEvents e ++ hostBridgeEvents e

/-- On a non-skipped run the trace is the cleanup followed by the
post-cleanup trace. -/
theorem mainRun_trace (e : BuildEnv) (hskip : ¬ e.SKIP_PROTOS = "1") :
    (mainRun e).1 = cleanupEvents ++ postTrace e := by
  rw [mainRun, if_neg hskip, postTrace]
  rcases hc : compileProtosRun e with ⟨ev, out⟩
  cases out <;> simp [List.append_assoc]

/-- Cleanup events are all `rmrf`s. -/
theorem cleanupEvents_rmrfOnly : ∀ ev ∈ cleanupEvents, ∃ p, ev = Event.rmrfE p := by
  intro ev hm
  rw [cleanupEvents] at hm
  obtain ⟨p, _, rfl⟩ := List.mem_map.mp hm
  exact ⟨p, rfl⟩

/-- No step after the cleanup removes files. -/
theorem noRmrf_tsProtocStep (e : BuildEnv) (pp outDir : String) (opts : List String) :
    noRmrf (tsProtocStep e pp outDir opts).1 := by
  intro p hm
  rw [tsProtocStep] at hm
  split at hm <;> simp [List.mem_map] at hm

/-- The descriptor step removes no files. -/
theorem noRmrf_descriptorStep (e : BuildEnv) (pp : String) :
    noRmrf (descriptorStep e pp).1 := by
  intro p hm
  rw [descriptorStep] at hm
  split at hm <;> simp at hm

/-- Concatenation preserves `rmrf`-freeness. -/
theorem noRmrf_append {A B : List Event} (hA : noRmrf A) (hB : noRmrf B) :
    noRmrf (A ++ B) := by
  intro p hm
  rcases List.mem_append.mp hm with h | h
  · exact hA p h
  · exact hB p h

/-- The compile phase removes no files. -/
theorem noRmrf_compileProtosRun (e : BuildEnv) : noRmrf (compileProtosRun e).1 := by
  have hmk : noRmrf mkdirEvents := by intro p hm; simp [mkdirEvents] at hm
  rw [compileProtosRun]
  split
  · intro p hm; simp at hm
  · split
    · split <;> (intro p hm; simp at hm)
    · rename_i pp _
      rcases h1 : tsProtocStep e pp TS_OUT_DIR TS_PROTO_OPTIONS with ⟨ev1, out1⟩
      have hev1 : noRmrf ev1 := by
        have := noRmrf_tsProtocStep e pp TS_OUT_DIR TS_PROTO_OPTIONS
        rwa [h1] at this
      cases out1 with
      | exit c => simpa [h1] using noRmrf_append hmk hev1
      | success =>
        rcases h2 : tsProtocStep e pp GRPC_JS_OUT_DIR ("outputServices=grpc-js" :: TS_PROTO_OPTIONS)
          with ⟨ev2, out2⟩
        have hev2 : noRmrf ev2 := by
          have := noRmrf_tsProtocStep e pp GRPC_JS_OUT_DIR ("outputServices=grpc-js" :: TS_PROTO_OPTIONS)
          rwa [h2] at this
        cases out2 with
        | exit c => simpa [h1, h2] using noRmrf_append (noRmrf_append hmk hev1) hev2
        | success =>
          rcases h3 : tsProtocStep e pp NICE_JS_OUT_DIR
              ("outputServices=nice-grpc,useExactTypes=false" :: TS_PROTO_OPTIONS) with ⟨ev3, out3⟩
          have hev3 : noRmrf ev3 := by
            have := noRmrf_tsProtocStep e pp NICE_JS_OUT_DIR
              ("outputServices=nice-grpc,useExactTypes=false" :: TS_PROTO_OPTIONS)
            rwa [h3] at this
          cases out3 with
          | exit c =>
            simpa [h1, h2, h3] using
              noRmrf_append (noRmrf_append (noRmrf_append hmk hev1) hev2) hev3
          | success =>
            rcases h4 : descriptorStep e pp with ⟨ev4, out4⟩
            have hev4 : noRmrf ev4 := by
              have := noRmrf_descriptorStep e pp
              rwa [h4] at this
            simpa [h1, h2, h3, h4] using
              noRmrf_append (noRmrf_append (noRmrf_append (noRmrf_append hmk hev1) hev2) hev3) hev4

/-- The whole post-cleanup trace removes no files. -/
theorem noRmrf_postTrace (e : BuildEnv) : noRmrf (postTrace e) := by
  have hpb : noRmrf (protobusEvents e) := by
    intro p hm; simp [protobusEvents, List.mem_map] at hm
  have hhb : noRmrf (hostBridgeEvents e) := by
    intro p hm; simp [hostBridgeEvents, List.mem_map] at hm
  have hc := noRmrf_compileProtosRun e
  rw [postTrace]
  rcases h : compileProtosRun e with ⟨ev, out⟩
  rw [h] at hc
  cases out with
  | exit c => exact hc
  | success => exact noRmrf_append (noRmrf_append hc hpb) hhb

/-- Pointwise description of the final filesystem of a non-skipped run: the
last write of the generation phase wins; otherwise the cleanup's deletions;
otherwise the file is untouched. -/
theorem finalFS_char (e : BuildEnv) (fs : FS) (q : String)
    (hskip : ¬ e.SKIP_PROTOS = "1") :
    finalFS e fs q =
      match lastWrite (postTrace e) q with
      | some c => some c
      | none => if coversRm cleanupEvents q then none else fs q := by
  rw [finalFS, mainRun_trace e hskip, applyEvents_append,
    applyEvents_noRmrf _ (noRmrf_postTrace e),
    applyEvents_rmrfOnly _ cleanupEvents_rmrfOnly]

/-- Prefix transitivity on raw character lists. -/
theorem listPrefixOf_trans {a b c : List Char} (h1 : listPrefixOf a b = true)
    (h2 : listPrefixOf b c = true) : listPrefixOf a c = true := by
  induction a generalizing b c with
  | nil => rfl
  | cons x xs ih =>
    cases b with
    | nil => simp [listPrefixOf] at h1
    | cons y ys =>
      cases c with
      | nil => simp [listPrefixOf] at h2
      | cons z zs =>
        simp only [listPrefixOf, Bool.and_eq_true, decide_eq_true_eq] at h1 h2 ⊢
        exact ⟨h1.1.trans h2.1, ih h1.2 h2.2⟩

/-- A list is a prefix of itself followed by anything. -/
theorem listPrefixOf_self_append (a l : List Char) : listPrefixOf a (a ++ l) = true := by
  induction a with
  | nil => rfl
  | cons x xs ih => simp [listPrefixOf, ih]

/-- When `p` already fails to be a prefix within the concrete first block `a`
of a concatenation, it is not a prefix of the concatenation. -/
theorem listPrefixOf_append_false (p a l : List Char)
    (h : listPrefixOf (p.take a.length) a = false) : listPrefixOf p (a ++ l) = false := by
  induction p generalizing a with
  | nil => simp [listPrefixOf] at h
  | cons x xs ih =>
    cases a with
    | nil => simp [listPrefixOf] at h
    | cons y ys =>
      simp only [List.length_cons, List.take_succ_cons, listPrefixOf, List.cons_append,
        Bool.and_eq_false_iff, decide_eq_false_iff_not] at h ⊢
      rcases h with h | h
      · exact Or.inl h
      · by_cases hxy : x = y
        · exact Or.inr (ih ys h)
        · exact Or.inl hxy

/-- A string extending `a` cannot equal a string of which `a` is not a prefix. -/
theorem string_concat_ne (a l m : String) (h : listPrefixOf a.data m.data = false) :
    ¬ a ++ l = m := by
  intro heq
  have hp : listPrefixOf a.data (a ++ l).data = true := by
    rw [String.data_append]
    exact listPrefixOf_self_append a.data l.data
  rw [heq, h] at hp
  exact Bool.false_ne_true hp

/-- A path of the form `a ++ l` is not under the directory `t` when the
concrete parts already clash. -/
theorem underPath_concat_false (t a l : String)
    (h1 : listPrefixOf a.data t.data = false)
    (h2 : listPrefixOf ((t ++ "/").data.take a.data.length) a.data = false) :
    underPath t (a ++ l) = false := by
  have hne : ¬ t = a ++ l := fun heq => string_concat_ne a l t h1 heq.symm
  have hpre : listPrefixOf (t ++ "/").data (a ++ l).data = false := by
    rw [String.data_append]
    exact listPrefixOf_append_false _ _ _ h2
  rw [underPath, hpre]
  simp [hne]

/-!
Theorems for the generation-pipeline claims.
-/

/-- C1.  For every unchanged input schema set — modelled as one fixed
`BuildEnv`, whose oracles also fix the (deterministic) behaviour of the
external `protoc`/`ts-proto` tools and of the two follow-up generators on
that schema — running the full pipeline (cleanup, the three per-flavor
protoc invocations, descriptor export, and the follow-up generators) twice
in succession yields exactly the filesystem of a single run: every output
file, in every output directory, is byte-identical between the runs. -/
theorem generationIdempotent (e : BuildEnv) (fs : FS) :
    finalFS e (finalFS e fs) = finalFS e fs := by
  funext q
  by_cases hskip : e.SKIP_PROTOS = "1"
  · simp [finalFS, mainRun, hskip, applyEvents]
  · rw [finalFS_char e (finalFS e fs) q hskip]
    cases hl : lastWrite (postTrace e) q with
    | some c => rw [finalFS_char e fs q hskip, hl]
    | none =>
      cases hc : coversRm cleanupEvents q with
      | true =>
        rw [finalFS_char e fs q hskip, hl]
        simp [hc]
      | false => simp [hc]

/-- C3.  With `SKIP_PROTOS=1`, `main` returns success immediately: the trace
is empty — no cleanup, no protoc compilation, no protobus setup and no
host-bridge client generation. -/
theorem skipProtosShortCircuits (e : BuildEnv) (h : e.SKIP_PROTOS = "1") :
    mainRun e = ([], RunOutcome.success) := by
  simp [mainRun, h]

/-- A concrete, fully successful environment used by the witnesses. -/
def witnessEnv : BuildEnv where
  SKIP_PROTOS := ""
  ALLOW_PROTO_FAILURE := ""
  PROTOC_PATH := some "pc"
  bundledProtoc := none
  systemProtoc := none
  protocVersion := fun c => if c = "pc" then some "libprotoc 25.1" else none
  appleSiliconBlocked := false
  tsProtoPlugin := "protoc-gen-ts_proto"
  protoFiles := ["common.proto"]
  execOk := fun _ => true
  tsProtocOutput := fun d => [("index.ts", "// " ++ d)]
  descriptorContent := "FDS"
  protobusOutput := [("src/core/controller/grpc-service-config.ts", "pb")]
  hostBridgeOutput := [("src/standalone/services/host-grpc-client.ts", "hb")]

/-- Witness for C3 at a concrete environment. -/
theorem skipProtosShortCircuits_witness :
    mainRun { witnessEnv with SKIP_PROTOS := "1" } = ([], RunOutcome.success) :=
  skipProtosShortCircuits { witnessEnv with SKIP_PROTOS := "1" } rfl

/-- C4.  When no candidate `protoc` works (on a run that gets as far as the
probe, i.e. not skipped and not blocked by the Apple-Silicon check), the
process exits with code 1 — unless `ALLOW_PROTO_FAILURE=1`, in which case no
generation command is ever spawned and the run still succeeds, continuing to
the protobus and host-bridge generators. -/
theorem noWorkingProtoc (e : BuildEnv)
    (hskip : ¬ e.SKIP_PROTOS = "1") (happle : e.appleSiliconBlocked = false)
    (hnone : ∀ c ∈ protocCandidates e, e.protocVersion c = none) :
    (¬ e.ALLOW_PROTO_FAILURE = "1" → (mainRun e).2 = RunOutcome.exit 1)
    ∧ (e.ALLOW_PROTO_FAILURE = "1" →
        (mainRun e).2 = RunOutcome.success
        ∧ (∀ cmd, Event.execE cmd ∉ (mainRun e).1)
        ∧ Event.protobusE ∈ (mainRun e).1
        ∧ Event.hostBridgeE ∈ (mainRun e).1) := by
  have hloc : locateProtoc e = none := by
    rw [locateProtoc, List.find?_eq_none]
    intro c hc
    simp [hnone c hc]
  constructor
  · intro hallow
    simp [mainRun, hskip, compileProtosRun, happle, hloc, hallow]
  · intro hallow
    refine ⟨?_, ?_, ?_, ?_⟩
    · simp [mainRun, hskip, compileProtosRun, happle, hloc, hallow]
    · intro cmd
      simp [mainRun, hskip, compileProtosRun, happle, hloc, hallow, cleanupEvents,
        protobusEvents, hostBridgeEvents, List.mem_append, List.mem_map]
    · simp [mainRun, hskip, compileProtosRun, happle, hloc, hallow, protobusEvents]
    · simp [mainRun, hskip, compileProtosRun, happle, hloc, hallow, hostBridgeEvents]

/-- Witness for C4: a concrete tolerated environment with no usable protoc. -/
theorem noWorkingProtoc_witness :
    ((¬ ("1" : String) = "1" →
        (mainRun { witnessEnv with PROTOC_PATH := none, ALLOW_PROTO_FAILURE := "1" }).2 =
          RunOutcome.exit 1)
     ∧ (("1" : String) = "1" →
        (mainRun { witnessEnv with PROTOC_PATH := none, ALLOW_PROTO_FAILURE := "1" }).2 =
            RunOutcome.success
        ∧ (∀ cmd, Event.execE cmd ∉
            (mainRun { witnessEnv with PROTOC_PATH := none, ALLOW_PROTO_FAILURE := "1" }).1)
        ∧ Event.protobusE ∈
            (mainRun { witnessEnv with PROTOC_PATH := none, ALLOW_PROTO_FAILURE := "1" }).1
        ∧ Event.hostBridgeE ∈
            (mainRun { witnessEnv with PROTOC_PATH := none, ALLOW_PROTO_FAILURE := "1" }).1)) :=
  noWorkingProtoc { witnessEnv with PROTOC_PATH := none, ALLOW_PROTO_FAILURE := "1" }
    (by decide) rfl (by intro c hc; simp [protocCandidates, witnessEnv] at hc)

/-- Monotonicity of path containment: anything under `child` is under
`parent` whenever `parent ++ "/"` is a prefix of `child`. -/
theorem underPath_mono (parent child q : String)
    (hpc : listPrefixOf (parent ++ "/").data child.data = true)
    (h : underPath child q = true) : underPath parent q = true := by
  rw [underPath] at h
  rcases (Bool.or_eq_true _ _).mp h with h1 | h2
  · have hcq : child = q := of_decide_eq_true h1
    subst hcq
    rw [underPath]
    exact (Bool.or_eq_true _ _).mpr (Or.inr hpc)
  · rw [underPath]
    refine (Bool.or_eq_true _ _).mpr (Or.inr (listPrefixOf_trans (listPrefixOf_trans hpc ?_) h2))
    rw [String.data_append]
    exact listPrefixOf_self_append child.data "/".data

/-- The cleanup deletes everything under the three flavor directories
(`src/shared/proto` directly; the grpc-js and nice-grpc directories through
`rmrf "src/generated"`). -/
theorem cleanup_covers_flavor (q : String)
    (hq : underPath TS_OUT_DIR q = true ∨ underPath GRPC_JS_OUT_DIR q = true
          ∨ underPath NICE_JS_OUT_DIR q = true) :
    coversRm cleanupEvents q = true := by
  apply List.any_eq_true.mpr
  rcases hq with h | h | h
  · exact ⟨Event.rmrfE TS_OUT_DIR, by decide, h⟩
  · exact ⟨Event.rmrfE "src/generated", by decide,
      underPath_mono "src/generated" GRPC_JS_OUT_DIR q (by decide) h⟩
  · exact ⟨Event.rmrfE "src/generated", by decide,
      underPath_mono "src/generated" NICE_JS_OUT_DIR q (by decide) h⟩

/-- C5 (amended).  On every non-skipped run, the three per-transport-flavor
output directories are fully regenerated: the final contents of any path
under them is independent of the previous filesystem state, because the
cleanup deletes those directories before any write happens. -/
theorem flavorDirsFullyRegenerated (e : BuildEnv) (fs1 fs2 : FS) (q : String)
    (hskip : ¬ e.SKIP_PROTOS = "1")
    (hq : underPath TS_OUT_DIR q = true ∨ underPath GRPC_JS_OUT_DIR q = true
          ∨ underPath NICE_JS_OUT_DIR q = true) :
    finalFS e fs1 q = finalFS e fs2 q := by
  have hcov := cleanup_covers_flavor q hq
  rw [finalFS_char e fs1 q hskip, finalFS_char e fs2 q hskip]
  cases hl : lastWrite (postTrace e) q <;> simp [hcov]

/-- An initial filesystem holding one stale file inside the descriptor
output directory. -/
def staleFS : FS :=
  fun p => if p = "dist-standalone/proto/stale.bin" then some "old" else none

/-- C5 counterexample.  The claim demands that every output target,
including the descriptor output, has its previous output fully deleted
before new output is written.  On a concrete fully-successful run the
descriptor artifact is freshly written, yet no `rmrf` of the whole run ever
covers a stale file sitting in the descriptor output directory, and that
stale file survives into the final filesystem: the descriptor target is not
cleaned, its single artifact is merely overwritten in place. -/
theorem staleDescriptorOutputSurvives :
    (mainRun witnessEnv).2 = RunOutcome.success
    ∧ Event.writeE descriptorFile "FDS" ∈ (mainRun witnessEnv).1
    ∧ coversRm (mainRun witnessEnv).1 "dist-standalone/proto/stale.bin" = false
    ∧ finalFS witnessEnv staleFS "dist-standalone/proto/stale.bin" = some "old" := by
  decide

/-- Witness for the amended C5 at a concrete environment, path and pair of
initial filesystems that differ on the flavor path. -/
theorem flavorDirsFullyRegenerated_witness :
    finalFS witnessEnv (fun p => if p = "src/generated/grpc-js/stale.ts" then some "junk" else none)
        "src/generated/grpc-js/stale.ts"
      = finalFS witnessEnv (fun _ => none) "src/generated/grpc-js/stale.ts" :=
  flavorDirsFullyRegenerated witnessEnv
    (fun p => if p = "src/generated/grpc-js/stale.ts" then some "junk" else none)
    (fun _ => none) "src/generated/grpc-js/stale.ts" (by decide)
    (Or.inr (Or.inl (by decide)))

/-- C6.  A generation run that reaches the compile phase issues all three
flavored stub-generation commands — generic definitions, grpc-js and
nice-grpc — over the same single list of proto schema files, each into its
own (pairwise distinct) output directory.  The flavor of each invocation is
fixed by its `outputServices` option. -/
theorem threeFlavorsOneSchema (e : BuildEnv) (pp : String)
    (hskip : ¬ e.SKIP_PROTOS = "1") (happle : e.appleSiliconBlocked = false)
    (hloc : locateProtoc e = some pp)
    (h1 : e.execOk (tsProtocCmd e pp TS_OUT_DIR TS_PROTO_OPTIONS) = true)
    (h2 : e.execOk (tsProtocCmd e pp GRPC_JS_OUT_DIR
        ("outputServices=grpc-js" :: TS_PROTO_OPTIONS)) = true)
    (h3 : e.execOk (tsProtocCmd e pp NICE_JS_OUT_DIR
        ("outputServices=nice-grpc,useExactTypes=false" :: TS_PROTO_OPTIONS)) = true) :
    (Event.execE (tsProtocCmd e pp TS_OUT_DIR TS_PROTO_OPTIONS) ∈ (mainRun e).1
     ∧ Event.execE (tsProtocCmd e pp GRPC_JS_OUT_DIR
         ("outputServices=grpc-js" :: TS_PROTO_OPTIONS)) ∈ (mainRun e).1
     ∧ Event.execE (tsProtocCmd e pp NICE_JS_OUT_DIR
         ("outputServices=nice-grpc,useExactTypes=false" :: TS_PROTO_OPTIONS)) ∈ (mainRun e).1)
    ∧ (∀ f ∈ e.protoFiles,
        quoteArg f ∈ tsProtocCmdParts e pp TS_OUT_DIR TS_PROTO_OPTIONS
        ∧ quoteArg f ∈ tsProtocCmdParts e pp GRPC_JS_OUT_DIR
            ("outputServices=grpc-js" :: TS_PROTO_OPTIONS)
        ∧ quoteArg f ∈ tsProtocCmdParts e pp NICE_JS_OUT_DIR
            ("outputServices=nice-grpc,useExactTypes=false" :: TS_PROTO_OPTIONS))
    ∧ (¬ TS_OUT_DIR = GRPC_JS_OUT_DIR ∧ ¬ TS_OUT_DIR = NICE_JS_OUT_DIR
       ∧ ¬ GRPC_JS_OUT_DIR = NICE_JS_OUT_DIR) := by
  refine ⟨?_, ?_, by decide⟩
  · by_cases hd : e.execOk (descriptorCmd e pp) = true
    · refine ⟨?_, ?_, ?_⟩ <;>
        simp [mainRun, hskip, compileProtosRun, happle, hloc, tsProtocStep, descriptorStep,
          h1, h2, h3, hd, List.mem_append]
    · have hd' : e.execOk (descriptorCmd e pp) = false := by simpa using hd
      refine ⟨?_, ?_, ?_⟩ <;>
        simp [mainRun, hskip, compileProtosRun, happle, hloc, tsProtocStep, descriptorStep,
          h1, h2, h3, hd', List.mem_append]
  · intro f hf
    refine ⟨?_, ?_, ?_⟩ <;>
      exact List.mem_append.mpr (Or.inr (List.mem_map.mpr ⟨f, hf, rfl⟩))

/-- Witness for C6 at the concrete successful environment. -/
theorem threeFlavorsOneSchema_witness :
    (Event.execE (tsProtocCmd witnessEnv "pc" TS_OUT_DIR TS_PROTO_OPTIONS)
        ∈ (mainRun witnessEnv).1
     ∧ Event.execE (tsProtocCmd witnessEnv "pc" GRPC_JS_OUT_DIR
         ("outputServices=grpc-js" :: TS_PROTO_OPTIONS)) ∈ (mainRun witnessEnv).1
     ∧ Event.execE (tsProtocCmd witnessEnv "pc" NICE_JS_OUT_DIR
         ("outputServices=nice-grpc,useExactTypes=false" :: TS_PROTO_OPTIONS))
        ∈ (mainRun witnessEnv).1)
    ∧ (∀ f ∈ witnessEnv.protoFiles,
        quoteArg f ∈ tsProtocCmdParts witnessEnv "pc" TS_OUT_DIR TS_PROTO_OPTIONS
        ∧ quoteArg f ∈ tsProtocCmdParts witnessEnv "pc" GRPC_JS_OUT_DIR
            ("outputServices=grpc-js" :: TS_PROTO_OPTIONS)
        ∧ quoteArg f ∈ tsProtocCmdParts witnessEnv "pc" NICE_JS_OUT_DIR
            ("outputServices=nice-grpc,useExactTypes=false" :: TS_PROTO_OPTIONS))
    ∧ (¬ TS_OUT_DIR = GRPC_JS_OUT_DIR ∧ ¬ TS_OUT_DIR = NICE_JS_OUT_DIR
       ∧ ¬ GRPC_JS_OUT_DIR = NICE_JS_OUT_DIR) :=
  threeFlavorsOneSchema witnessEnv "pc" (by decide) rfl (by decide) rfl rfl rfl

/-- C7.  The descriptor-export step invokes the compiler with
`--include_imports`, passes every proto schema file, and names exactly one
output artifact (`descriptor_set.pb`), which is written as a single file.
The two prefix side conditions say that neither the protoc path nor any
schema filename is itself spelled like a `--descriptor_set_out=` flag. -/
theorem descriptorExportOneArtifact (e : BuildEnv) (pp : String)
    (hskip : ¬ e.SKIP_PROTOS = "1") (happle : e.appleSiliconBlocked = false)
    (hloc : locateProtoc e = some pp)
    (h1 : e.execOk (tsProtocCmd e pp TS_OUT_DIR TS_PROTO_OPTIONS) = true)
    (h2 : e.execOk (tsProtocCmd e pp GRPC_JS_OUT_DIR
        ("outputServices=grpc-js" :: TS_PROTO_OPTIONS)) = true)
    (h3 : e.execOk (tsProtocCmd e pp NICE_JS_OUT_DIR
        ("outputServices=nice-grpc,useExactTypes=false" :: TS_PROTO_OPTIONS)) = true)
    (hd : e.execOk (descriptorCmd e pp) = true)
    (hpp : listPrefixOf "--".data pp.data = false)
    (hfiles : ∀ f ∈ e.protoFiles, listPrefixOf "--".data f.data = false) :
    Event.execE (descriptorCmd e pp) ∈ (mainRun e).1
    ∧ Event.writeE descriptorFile e.descriptorContent ∈ (mainRun e).1
    ∧ "--include_imports" ∈ descriptorCmdParts e pp
    ∧ (∀ f ∈ e.protoFiles, f ∈ descriptorCmdParts e pp)
    ∧ (descriptorCmdParts e pp).countP
        (fun s => listPrefixOf "--descriptor_set_out=".data s.data) = 1 := by
  have hdso : listPrefixOf "--".data "--descriptor_set_out=".data = true := by decide
  have hppf : listPrefixOf "--descriptor_set_out=".data pp.data = false := by
    cases hx : listPrefixOf "--descriptor_set_out=".data pp.data with
    | false => rfl
    | true => exact absurd (listPrefixOf_trans hdso hx) (by simp [hpp])
  refine ⟨?_, ?_, ?_, ?_, ?_⟩
  · simp [mainRun, hskip, compileProtosRun, happle, hloc, tsProtocStep, descriptorStep,
      h1, h2, h3, hd, List.mem_append]
  · simp [mainRun, hskip, compileProtosRun, happle, hloc, tsProtocStep, descriptorStep,
      h1, h2, h3, hd, List.mem_append]
  · simp [descriptorCmdParts]
  · intro f hf
    exact List.mem_append.mpr (Or.inr hf)
  · have hfz : (e.protoFiles).countP
        (fun s => listPrefixOf "--descriptor_set_out=".data s.data) = 0 := by
      apply List.countP_eq_zero.mpr
      intro f hf
      cases hx : listPrefixOf "--descriptor_set_out=".data f.data with
      | false => simp [hx]
      | true => exact absurd (listPrefixOf_trans hdso hx) (by simp [hfiles f hf])
    rw [descriptorCmdParts, List.countP_append, hfz]
    simp [List.countP_cons, hppf]
    decide

/-- Witness for C7 at the concrete successful environment. -/
theorem descriptorExportOneArtifact_witness :
    Event.execE (descriptorCmd witnessEnv "pc") ∈ (mainRun witnessEnv).1
    ∧ Event.writeE descriptorFile witnessEnv.descriptorContent ∈ (mainRun witnessEnv).1
    ∧ "--include_imports" ∈ descriptorCmdParts witnessEnv "pc"
    ∧ (∀ f ∈ witnessEnv.protoFiles, f ∈ descriptorCmdParts witnessEnv "pc")
    ∧ (descriptorCmdParts witnessEnv "pc").countP
        (fun s => listPrefixOf "--descriptor_set_out=".data s.data) = 1 :=
  descriptorExportOneArtifact witnessEnv "pc" (by decide) rfl (by decide) rfl rfl rfl rfl
    (by decide) (by intro f hf; simp [witnessEnv] at hf; subst hf; decide)

/-- The four output targets of one generation run: the three stub flavors
and the descriptor export. -/
inductive GenTarget where
  | tsOut
  | grpcJs
  | niceGrpc
  | descriptor
deriving DecidableEq

/-- The output directory of each target. -/
def targetDir : GenTarget → String
  | GenTarget.tsOut => TS_OUT_DIR
  | GenTarget.grpcJs => GRPC_JS_OUT_DIR
  | GenTarget.niceGrpc => NICE_JS_OUT_DIR
  | GenTarget.descriptor => DESCRIPTOR_OUT_DIR

/-- The command line issued for each target. -/
def targetCmd (e : BuildEnv) (pp : String) : GenTarget → String
  | GenTarget.tsOut => tsProtocCmd e pp TS_OUT_DIR TS_PROTO_OPTIONS
  | GenTarget.grpcJs =>
    tsProtocCmd e pp GRPC_JS_OUT_DIR ("outputServices=grpc-js" :: TS_PROTO_OPTIONS)
  | GenTarget.niceGrpc =>
    tsProtocCmd e pp NICE_JS_OUT_DIR
      ("outputServices=nice-grpc,useExactTypes=false" :: TS_PROTO_OPTIONS)
  | GenTarget.descriptor => descriptorCmd e pp

/-- The parts list of each target's command. -/
def targetCmdParts (e : BuildEnv) (pp : String) : GenTarget → List String
  | GenTarget.tsOut => tsProtocCmdParts e pp TS_OUT_DIR TS_PROTO_OPTIONS
  | GenTarget.grpcJs =>
    tsProtocCmdParts e pp GRPC_JS_OUT_DIR ("outputServices=grpc-js" :: TS_PROTO_OPTIONS)
  | GenTarget.niceGrpc =>
    tsProtocCmdParts e pp NICE_JS_OUT_DIR
      ("outputServices=nice-grpc,useExactTypes=false" :: TS_PROTO_OPTIONS)
  | GenTarget.descriptor => descriptorCmdParts e pp

/-- Position of each target in the run order. -/
def targetIdx : GenTarget → Nat
  | GenTarget.tsOut => 0
  | GenTarget.grpcJs => 1
  | GenTarget.niceGrpc => 2
  | GenTarget.descriptor => 3

/-- The error-log prefix printed when a target's command fails (the logged
message carries the failed command, which names the target's output path). -/
def targetErrText : GenTarget → String
  | GenTarget.descriptor => "Error generating descriptor set for proto file: Command failed: "
  | _ => "Error generating TypeScript for proto files: Command failed: "

/-- The command-line flag that names the target's output location. -/
def targetOutFlag : GenTarget → String
  | GenTarget.descriptor => "--descriptor_set_out=" ++ quoteArg descriptorFile
  | t => "--ts_proto_out=" ++ quoteArg (targetDir t)

/-- A block of writes under a fixed prefix never writes a path that is not
of that prefixed form. -/
theorem lastWrite_writes_none (d : String) (l : List (String × String)) (q : String)
    (hq : ∀ a, ¬ q = d ++ "/" ++ a) :
    lastWrite (l.map (fun pc => Event.writeE (d ++ "/" ++ pc.1) pc.2)) q = none := by
  induction l with
  | nil => rfl
  | cons x xs ih =>
    show lastWrite (Event.writeE (d ++ "/" ++ x.1) x.2 :: _) q = none
    rw [lastWrite, ih]
    simp [hq x.1]

/-- A generation step's trace (one exec followed by its writes under the
target directory) never writes a path that is not under that prefix. -/
theorem lastWrite_step_none (cmd d : String) (l : List (String × String)) (q : String)
    (hq : ∀ a, ¬ q = d ++ "/" ++ a) :
    lastWrite (Event.execE cmd ::
      l.map (fun pc => Event.writeE (d ++ "/" ++ pc.1) pc.2)) q = none := by
  apply lastWrite_eq_none
  intro p c hm
  rcases List.mem_cons.mp hm with h | h
  · simp at h
  · obtain ⟨x, _, hxe⟩ := List.mem_map.mp h
    injection hxe with h1 h2
    intro hqp
    rw [← h1] at hqp
    exact hq x.1 hqp

/-- C2.  On a run that reaches generation, if a per-target stub-generation
command or the descriptor-export command is the first to fail, then the
process exits with code 1; the failure is reported in an error log carrying
the failed command, whose parts name the target's output location; and the
failing target receives no partial output — a flavor target's directory is
left empty (cleaned and never written), and a failing descriptor export
leaves the descriptor artifact exactly as it was before the run. -/
theorem failedTargetAborts (e : BuildEnv) (fs : FS) (pp : String) (tgt : GenTarget)
    (hskip : ¬ e.SKIP_PROTOS = "1") (happle : e.appleSiliconBlocked = false)
    (hloc : locateProtoc e = some pp)
    (hfail : e.execOk (targetCmd e pp tgt) = false)
    (hprev : ∀ t, targetIdx t < targetIdx tgt → e.execOk (targetCmd e pp t) = true) :
    (mainRun e).2 = RunOutcome.exit 1
    ∧ Event.errorLogE (targetErrText tgt ++ targetCmd e pp tgt) ∈ (mainRun e).1
    ∧ targetOutFlag tgt ∈ targetCmdParts e pp tgt
    ∧ (¬ tgt = GenTarget.descriptor →
        ∀ q, underPath (targetDir tgt) q = true → finalFS e fs q = none)
    ∧ (tgt = GenTarget.descriptor → finalFS e fs descriptorFile = fs descriptorFile) := by
  cases tgt with
  | tsOut =>
    simp only [targetCmd] at hfail
    have hcpr : compileProtosRun e =
        (mkdirEvents ++
          [Event.execE (tsProtocCmd e pp TS_OUT_DIR TS_PROTO_OPTIONS),
           Event.errorLogE ("Error generating TypeScript for proto files: Command failed: " ++
             tsProtocCmd e pp TS_OUT_DIR TS_PROTO_OPTIONS)],
         RunOutcome.exit 1) := by
      simp [compileProtosRun, happle, hloc, tsProtocStep, hfail]
    have hpt : postTrace e =
        mkdirEvents ++
          [Event.execE (tsProtocCmd e pp TS_OUT_DIR TS_PROTO_OPTIONS),
           Event.errorLogE ("Error generating TypeScript for proto files: Command failed: " ++
             tsProtocCmd e pp TS_OUT_DIR TS_PROTO_OPTIONS)] := by
      rw [postTrace, hcpr]
    have hmain : mainRun e =
        (cleanupEvents ++
          (mkdirEvents ++
            [Event.execE (tsProtocCmd e pp TS_OUT_DIR TS_PROTO_OPTIONS),
             Event.errorLogE ("Error generating TypeScript for proto files: Command failed: " ++
               tsProtocCmd e pp TS_OUT_DIR TS_PROTO_OPTIONS)]),
         RunOutcome.exit 1) := by
      rw [mainRun, if_neg hskip, hcpr]
    refine ⟨by rw [hmain], ?_, ?_, ?_, ?_⟩
    · rw [hmain]
      simp [targetErrText, targetCmd]
    · simp [targetOutFlag, targetCmdParts, targetDir, tsProtocCmdParts]
    · intro _ q hq
      have hlw : lastWrite (postTrace e) q = none := by
        apply lastWrite_eq_none
        intro p c hm
        rw [hpt] at hm
        simp [mkdirEvents] at hm
      rw [finalFS_char e fs q hskip, hlw, cleanup_covers_flavor q (Or.inl hq)]
      simp
    · intro h
      exact absurd h (by decide)
  | grpcJs =>
    simp only [targetCmd] at hfail
    have hc1 : e.execOk (tsProtocCmd e pp TS_OUT_DIR TS_PROTO_OPTIONS) = true := by
      have := hprev GenTarget.tsOut (by decide)
      simpa [targetCmd] using this
    have hcpr : compileProtosRun e =
        (mkdirEvents ++
          (Event.execE (tsProtocCmd e pp TS_OUT_DIR TS_PROTO_OPTIONS) ::
            (e.tsProtocOutput TS_OUT_DIR).map
              (fun pc => Event.writeE (TS_OUT_DIR ++ "/" ++ pc.1) pc.2)) ++
          [Event.execE (tsProtocCmd e pp GRPC_JS_OUT_DIR
              ("outputServices=grpc-js" :: TS_PROTO_OPTIONS)),
           Event.errorLogE ("Error generating TypeScript for proto files: Command failed: " ++
             tsProtocCmd e pp GRPC_JS_OUT_DIR ("outputServices=grpc-js" :: TS_PROTO_OPTIONS))],
         RunOutcome.exit 1) := by
      simp [compileProtosRun, happle, hloc, tsProtocStep, hc1, hfail]
    have hpt : postTrace e =
        mkdirEvents ++
          (Event.execE (tsProtocCmd e pp TS_OUT_DIR TS_PROTO_OPTIONS) ::
            (e.tsProtocOutput TS_OUT_DIR).map
              (fun pc => Event.writeE (TS_OUT_DIR ++ "/" ++ pc.1) pc.2)) ++
          [Event.execE (tsProtocCmd e pp GRPC_JS_OUT_DIR
              ("outputServices=grpc-js" :: TS_PROTO_OPTIONS)),
           Event.errorLogE ("Error generating TypeScript for proto files: Command failed: " ++
             tsProtocCmd e pp GRPC_JS_OUT_DIR ("outputServices=grpc-js" :: TS_PROTO_OPTIONS))] := by
      rw [postTrace, hcpr]
    have hmain1 : (mainRun e).1 = cleanupEvents ++ postTrace e := mainRun_trace e hskip
    have hmain2 : (mainRun e).2 = RunOutcome.exit 1 := by
      rw [mainRun, if_neg hskip, hcpr]
    refine ⟨hmain2, ?_, ?_, ?_, ?_⟩
    · rw [hmain1, hpt]
      simp [targetErrText, targetCmd]
    · simp [targetOutFlag, targetCmdParts, targetDir, tsProtocCmdParts]
    · intro _ q hq
      simp only [targetDir] at hq
      have hnq : ∀ a, ¬ q = TS_OUT_DIR ++ "/" ++ a := by
        intro a heq
        have hf := underPath_concat_false GRPC_JS_OUT_DIR (TS_OUT_DIR ++ "/") a
          (by decide) (by decide)
        rw [← heq] at hf
        rw [hf] at hq
        exact Bool.false_ne_true hq
      have hlw : lastWrite (postTrace e) q = none := by
        rw [hpt, lastWrite_append, lastWrite_append]
        rw [show lastWrite [Event.execE (tsProtocCmd e pp GRPC_JS_OUT_DIR
              ("outputServices=grpc-js" :: TS_PROTO_OPTIONS)),
            Event.errorLogE ("Error generating TypeScript for proto files: Command failed: " ++
              tsProtocCmd e pp GRPC_JS_OUT_DIR
                ("outputServices=grpc-js" :: TS_PROTO_OPTIONS))] q = none from rfl]
        rw [lastWrite_step_none (tsProtocCmd e pp TS_OUT_DIR TS_PROTO_OPTIONS)
          TS_OUT_DIR (e.tsProtocOutput TS_OUT_DIR) q hnq]
        simp [mkdirEvents, lastWrite]
      rw [finalFS_char e fs q hskip, hlw,
        cleanup_covers_flavor q (Or.inr (Or.inl hq))]
      simp
    · intro h
      exact absurd h (by decide)
  | niceGrpc =>
    simp only [targetCmd] at hfail
    have hc1 : e.execOk (tsProtocCmd e pp TS_OUT_DIR TS_PROTO_OPTIONS) = true := by
      have := hprev GenTarget.tsOut (by decide)
      simpa [targetCmd] using this
    have hc2 : e.execOk (tsProtocCmd e pp GRPC_JS_OUT_DIR
        ("outputServices=grpc-js" :: TS_PROTO_OPTIONS)) = true := by
      have := hprev GenTarget.grpcJs (by decide)
      simpa [targetCmd] using this
    have hcpr : compileProtosRun e =
        (mkdirEvents ++
          (Event.execE (tsProtocCmd e pp TS_OUT_DIR TS_PROTO_OPTIONS) ::
            (e.tsProtocOutput TS_OUT_DIR).map
              (fun pc => Event.writeE (TS_OUT_DIR ++ "/" ++ pc.1) pc.2)) ++
          (Event.execE (tsProtocCmd e pp GRPC_JS_OUT_DIR
              ("outputServices=grpc-js" :: TS_PROTO_OPTIONS)) ::
            (e.tsProtocOutput GRPC_JS_OUT_DIR).map
              (fun pc => Event.writeE (GRPC_JS_OUT_DIR ++ "/" ++ pc.1) pc.2)) ++
          [Event.execE (tsProtocCmd e pp NICE_JS_OUT_DIR
              ("outputServices=nice-grpc,useExactTypes=false" :: TS_PROTO_OPTIONS)),
           Event.errorLogE ("Error generating TypeScript for proto files: Command failed: " ++
             tsProtocCmd e pp NICE_JS_OUT_DIR
               ("outputServices=nice-grpc,useExactTypes=false" :: TS_PROTO_OPTIONS))],
         RunOutcome.exit 1) := by
      simp [compileProtosRun, happle, hloc, tsProtocStep, hc1, hc2, hfail]
    have hpt : postTrace e =
        mkdirEvents ++
          (Event.execE (tsProtocCmd e pp TS_OUT_DIR TS_PROTO_OPTIONS) ::
            (e.tsProtocOutput TS_OUT_DIR).map
              (fun pc => Event.writeE (TS_OUT_DIR ++ "/" ++ pc.1) pc.2)) ++
          (Event.execE (tsProtocCmd e pp GRPC_JS_OUT_DIR
              ("outputServices=grpc-js" :: TS_PROTO_OPTIONS)) ::
            (e.tsProtocOutput GRPC_JS_OUT_DIR).map
              (fun pc => Event.writeE (GRPC_JS_OUT_DIR ++ "/" ++ pc.1) pc.2)) ++
          [Event.execE (tsProtocCmd e pp NICE_JS_OUT_DIR
              ("outputServices=nice-grpc,useExactTypes=false" :: TS_PROTO_OPTIONS)),
           Event.errorLogE ("Error generating TypeScript for proto files: Command failed: " ++
             tsProtocCmd e pp NICE_JS_OUT_DIR
               ("outputServices=nice-grpc,useExactTypes=false" :: TS_PROTO_OPTIONS))] := by
      rw [postTrace, hcpr]
    have hmain1 : (mainRun e).1 = cleanupEvents ++ postTrace e := mainRun_trace e hskip
    have hmain2 : (mainRun e).2 = RunOutcome.exit 1 := by
      rw [mainRun, if_neg hskip, hcpr]
    refine ⟨hmain2, ?_, ?_, ?_, ?_⟩
    · rw [hmain1, hpt]
      simp [targetErrText, targetCmd]
    · simp [targetOutFlag, targetCmdParts, targetDir, tsProtocCmdParts]
    · intro _ q hq
      simp only [targetDir] at hq
      have hnq1 : ∀ a, ¬ q = TS_OUT_DIR ++ "/" ++ a := by
        intro a heq
        have hf := underPath_concat_false NICE_JS_OUT_DIR (TS_OUT_DIR ++ "/") a
          (by decide) (by decide)
        rw [← heq] at hf
        rw [hf] at hq
        exact Bool.false_ne_true hq
      have hnq2 : ∀ a, ¬ q = GRPC_JS_OUT_DIR ++ "/" ++ a := by
        intro a heq
        have hf := underPath_concat_false NICE_JS_OUT_DIR (GRPC_JS_OUT_DIR ++ "/") a
          (by decide) (by decide)
        rw [← heq] at hf
        rw [hf] at hq
        exact Bool.false_ne_true hq
      have hlw : lastWrite (postTrace e) q = none := by
        rw [hpt, lastWrite_append, lastWrite_append, lastWrite_append]
        rw [show lastWrite [Event.execE (tsProtocCmd e pp NICE_JS_OUT_DIR
              ("outputServices=nice-grpc,useExactTypes=false" :: TS_PROTO_OPTIONS)),
            Event.errorLogE ("Error generating TypeScript for proto files: Command failed: " ++
              tsProtocCmd e pp NICE_JS_OUT_DIR
                ("outputServices=nice-grpc,useExactTypes=false" :: TS_PROTO_OPTIONS))] q = none
          from rfl]
        rw [lastWrite_step_none (tsProtocCmd e pp GRPC_JS_OUT_DIR
            ("outputServices=grpc-js" :: TS_PROTO_OPTIONS))
          GRPC_JS_OUT_DIR (e.tsProtocOutput GRPC_JS_OUT_DIR) q hnq2]
        rw [lastWrite_step_none (tsProtocCmd e pp TS_OUT_DIR TS_PROTO_OPTIONS)
          TS_OUT_DIR (e.tsProtocOutput TS_OUT_DIR) q hnq1]
        simp [mkdirEvents, lastWrite]
      rw [finalFS_char e fs q hskip, hlw,
        cleanup_covers_flavor q (Or.inr (Or.inr hq))]
      simp
    · intro h
      exact absurd h (by decide)
  | descriptor =>
    simp only [targetCmd] at hfail
    have hc1 : e.execOk (tsProtocCmd e pp TS_OUT_DIR TS_PROTO_OPTIONS) = true := by
      have := hprev GenTarget.tsOut (by decide)
      simpa [targetCmd] using this
    have hc2 : e.execOk (tsProtocCmd e pp GRPC_JS_OUT_DIR
        ("outputServices=grpc-js" :: TS_PROTO_OPTIONS)) = true := by
      have := hprev GenTarget.grpcJs (by decide)
      simpa [targetCmd] using this
    have hc3 : e.execOk (tsProtocCmd e pp NICE_JS_OUT_DIR
        ("outputServices=nice-grpc,useExactTypes=false" :: TS_PROTO_OPTIONS)) = true := by
      have := hprev GenTarget.niceGrpc (by decide)
      simpa [targetCmd] using this
    have hcpr : compileProtosRun e =
        (mkdirEvents ++
          (Event.execE (tsProtocCmd e pp TS_OUT_DIR TS_PROTO_OPTIONS) ::
            (e.tsProtocOutput TS_OUT_DIR).map
              (fun pc => Event.writeE (TS_OUT_DIR ++ "/" ++ pc.1) pc.2)) ++
          (Event.execE (tsProtocCmd e pp GRPC_JS_OUT_DIR
              ("outputServices=grpc-js" :: TS_PROTO_OPTIONS)) ::
            (e.tsProtocOutput GRPC_JS_OUT_DIR).map
              (fun pc => Event.writeE (GRPC_JS_OUT_DIR ++ "/" ++ pc.1) pc.2)) ++
          (Event.execE (tsProtocCmd e pp NICE_JS_OUT_DIR
              ("outputServices=nice-grpc,useExactTypes=false" :: TS_PROTO_OPTIONS)) ::
            (e.tsProtocOutput NICE_JS_OUT_DIR).map
              (fun pc => Event.writeE (NICE_JS_OUT_DIR ++ "/" ++ pc.1) pc.2)) ++
          [Event.execE (descriptorCmd e pp),
           Event.errorLogE ("Error generating descriptor set for proto file: Command failed: " ++
             descriptorCmd e pp)],
         RunOutcome.exit 1) := by
      simp [compileProtosRun, happle, hloc, tsProtocStep, descriptorStep, hc1, hc2, hc3, hfail]
    have hpt : postTrace e =
        mkdirEvents ++
          (Event.execE (tsProtocCmd e pp TS_OUT_DIR TS_PROTO_OPTIONS) ::
            (e.tsProtocOutput TS_OUT_DIR).map
              (fun pc => Event.writeE (TS_OUT_DIR ++ "/" ++ pc.1) pc.2)) ++
          (Event.execE (tsProtocCmd e pp GRPC_JS_OUT_DIR
              ("outputServices=grpc-js" :: TS_PROTO_OPTIONS)) ::
            (e.tsProtocOutput GRPC_JS_OUT_DIR).map
              (fun pc => Event.writeE (GRPC_JS_OUT_DIR ++ "/" ++ pc.1) pc.2)) ++
          (Event.execE (tsProtocCmd e pp NICE_JS_OUT_DIR
              ("outputServices=nice-grpc,useExactTypes=false" :: TS_PROTO_OPTIONS)) ::
            (e.tsProtocOutput NICE_JS_OUT_DIR).map
              (fun pc => Event.writeE (NICE_JS_OUT_DIR ++ "/" ++ pc.1) pc.2)) ++
          [Event.execE (descriptorCmd e pp),
           Event.errorLogE ("Error generating descriptor set for proto file: Command failed: " ++
             descriptorCmd e pp)] := by
      rw [postTrace, hcpr]
    have hmain1 : (mainRun e).1 = cleanupEvents ++ postTrace e := mainRun_trace e hskip
    have hmain2 : (mainRun e).2 = RunOutcome.exit 1 := by
      rw [mainRun, if_neg hskip, hcpr]
    refine ⟨hmain2, ?_, ?_, ?_, ?_⟩
    · rw [hmain1, hpt]
      simp [targetErrText, targetCmd]
    · simp [targetOutFlag, targetCmdParts, descriptorCmdParts]
    · intro h
      exact absurd rfl h
    · intro _
      have hnq1 : ∀ a, ¬ descriptorFile = TS_OUT_DIR ++ "/" ++ a := fun a heq =>
        string_concat_ne (TS_OUT_DIR ++ "/") a descriptorFile (by decide) heq.symm
      have hnq2 : ∀ a, ¬ descriptorFile = GRPC_JS_OUT_DIR ++ "/" ++ a := fun a heq =>
        string_concat_ne (GRPC_JS_OUT_DIR ++ "/") a descriptorFile (by decide) heq.symm
      have hnq3 : ∀ a, ¬ descriptorFile = NICE_JS_OUT_DIR ++ "/" ++ a := fun a heq =>
        string_concat_ne (NICE_JS_OUT_DIR ++ "/") a descriptorFile (by decide) heq.symm
      have hlw : lastWrite (postTrace e) descriptorFile = none := by
        rw [hpt, lastWrite_append, lastWrite_append, lastWrite_append, lastWrite_append]
        rw [show lastWrite [Event.execE (descriptorCmd e pp),
            Event.errorLogE ("Error generating descriptor set for proto file: Command failed: " ++
              descriptorCmd e pp)] descriptorFile = none from rfl]
        rw [lastWrite_step_none (tsProtocCmd e pp NICE_JS_OUT_DIR
            ("outputServices=nice-grpc,useExactTypes=false" :: TS_PROTO_OPTIONS))
          NICE_JS_OUT_DIR (e.tsProtocOutput NICE_JS_OUT_DIR) descriptorFile hnq3]
        rw [lastWrite_step_none (tsProtocCmd e pp GRPC_JS_OUT_DIR
            ("outputServices=grpc-js" :: TS_PROTO_OPTIONS))
          GRPC_JS_OUT_DIR (e.tsProtocOutput GRPC_JS_OUT_DIR) descriptorFile hnq2]
        rw [lastWrite_step_none (tsProtocCmd e pp TS_OUT_DIR TS_PROTO_OPTIONS)
          TS_OUT_DIR (e.tsProtocOutput TS_OUT_DIR) descriptorFile hnq1]
        simp [mkdirEvents, lastWrite]
      have hcov : coversRm cleanupEvents descriptorFile = false := by decide
      rw [finalFS_char e fs descriptorFile hskip, hlw, hcov]
      simp

/-- Witness for C2: a concrete environment in which the first flavored
stub-generation command fails. -/
theorem failedTargetAborts_witness :
    (mainRun { witnessEnv with execOk := fun _ => false }).2 = RunOutcome.exit 1
    ∧ Event.errorLogE (targetErrText GenTarget.tsOut ++
        targetCmd { witnessEnv with execOk := fun _ => false } "pc" GenTarget.tsOut)
      ∈ (mainRun { witnessEnv with execOk := fun _ => false }).1
    ∧ targetOutFlag GenTarget.tsOut ∈
        targetCmdParts { witnessEnv with execOk := fun _ => false } "pc" GenTarget.tsOut
    ∧ (¬ GenTarget.tsOut = GenTarget.descriptor →
        ∀ q, underPath (targetDir GenTarget.tsOut) q = true →
          finalFS { witnessEnv with execOk := fun _ => false } (fun _ => none) q = none)
    ∧ (GenTarget.tsOut = GenTarget.descriptor →
        finalFS { witnessEnv with execOk := fun _ => false } (fun _ => none) descriptorFile
          = (fun _ => (none : Option String)) descriptorFile) :=
  failedTargetAborts { witnessEnv with execOk := fun _ => false } (fun _ => none) "pc"
    GenTarget.tsOut (by decide) rfl (by decide) rfl
    (fun t h => absurd h (Nat.not_lt_zero _))

/-!
Theorems for the sanitizer claims.
-/

/-- C8.  A falsy JS string is exactly the empty string; on it both
`sanitizeAssistantText` and `sanitizeFileContent` return the input
unchanged, performing no stripping or extraction. -/
theorem falsyInputUnchanged (s : String) (lang : Option String) (h : s = "") :
    sanitizeAssistantText s = s ∧ sanitizeFileContent s lang = s := by
  subst h
  exact ⟨rfl, rfl⟩

/-- Witness for C8 at the empty string. -/
theorem falsyInputUnchanged_witness :
    sanitizeAssistantText "" = "" ∧ sanitizeFileContent "" none = "" :=
  falsyInputUnchanged "" none rfl

/-- Does `t` end with `pat`? -/
def endsWithPat (pat t : List Char) : Bool :=
  listPrefixOf pat.reverse t.reverse

/-- C9 counterexample.  In `"<html>x</html><!doctype"` (left unchanged by
sanitization) the start marker `<html` occurs at index 0, before the end
marker `</html>` at index 7 — the claim's hypothesis holds — yet
`sanitizeFileContent` returns the whole text: the code takes the *larger* of
the two start-marker indices (`Math.max`), here the `<!doctype` at index 14,
which lies after the last `</html>`, so no HTML span is extracted.  The
returned text does not even end with `</html>`, so it is no trimmed HTML
document span at all. -/
theorem htmlMarkerOrderCounterexample :
    sanitizeAssistantText "<html>x</html><!doctype" = "<html>x</html><!doctype"
    ∧ indexOfPat false htmlOpenTok "<html>x</html><!doctype".data = some 0
    ∧ lastIndexOfPat false htmlCloseTok "<html>x</html><!doctype".data = some 7
    ∧ indexOfPat false doctypeTok "<html>x</html><!doctype".data = some 14
    ∧ sanitizeFileContent "<html>x</html><!doctype" none = "<html>x</html><!doctype"
    ∧ endsWithPat htmlCloseTok "<html>x</html><!doctype".data = false := by
  decide

/-- Whitespace characters are fixed by `Char.toLower`. -/
theorem toLower_of_jsWhitespace (c : Char) (h : jsWhitespace c = true) :
    Char.toLower c = c := by
  rw [jsWhitespace] at h
  have hm : c ∈ jsWhitespaceChars := by simpa using h
  fin_cases hm <;> rfl

/-- A character whose lower-casing is `<` is not whitespace. -/
theorem not_ws_of_toLower_lt (c : Char) (h : Char.toLower c = '<') :
    jsWhitespace c = false := by
  cases hw : jsWhitespace c with
  | false => rfl
  | true =>
    have hc : c = '<' := by rw [← toLower_of_jsWhitespace c hw, h]
    rw [hc] at hw
    exact absurd hw (by decide)

/-- Dropping whitespace from a list that ends in a non-whitespace character
leaves something. -/
theorem dropWhile_ws_append_ne_nil (l : List Char) (x : Char)
    (hx : jsWhitespace x = false) : (l ++ [x]).dropWhile jsWhitespace ≠ [] := by
  induction l with
  | nil => simp [List.dropWhile, hx]
  | cons a as ih =>
    cases ha : jsWhitespace a with
    | true => simpa [List.dropWhile, ha] using ih
    | false => simp [List.dropWhile, ha]

/-- Trimming a list with a non-whitespace head gives a non-empty list. -/
theorem jsTrim_cons_ne_nil (x : Char) (rest : List Char)
    (hx : jsWhitespace x = false) : jsTrim (x :: rest) ≠ [] := by
  rw [jsTrim]
  have h1 : (x :: rest).dropWhile jsWhitespace = x :: rest := by
    simp [List.dropWhile, hx]
  rw [h1]
  intro hcontra
  rw [List.reverse_eq_nil_iff] at hcontra
  have : rest.reverse ++ [x] = (x :: rest).reverse := by simp
  rw [← this] at hcontra
  exact dropWhile_ws_append_ne_nil rest.reverse x hx hcontra

/-- When a pattern beginning with `ch` matches at offset `i`, the list at
offset `i` starts with `ch`. -/
theorem startsWith_drop_cons (ch : Char) (ps l : List Char) (i : Nat)
    (h : startsWithAux false (ch :: ps) (l.drop i) = true) :
    l.drop i = ch :: l.drop (i + 1) := by
  cases hdrop : l.drop i with
  | nil => rw [hdrop] at h; exact absurd h (by simp [startsWithAux])
  | cons y ys =>
    rw [hdrop] at h
    simp [startsWithAux] at h
    have hys : ys = l.drop (i + 1) := by
      have ht := List.tail_drop l i
      rw [hdrop] at ht
      simpa using ht
    rw [h.1, hys]

/-- The possible sources of a `Math.max` index. -/
theorem jsMaxIdx_cases (a b : Option Nat) (i : Nat) (h : jsMaxIdx a b = some i) :
    a = some i ∨ b = some i := by
  cases a with
  | none =>
    cases b with
    | none => exact absurd h (by simp [jsMaxIdx])
    | some y => simp [jsMaxIdx] at h; exact Or.inr (by rw [h])
  | some x =>
    cases b with
    | none => simp [jsMaxIdx] at h; exact Or.inl (by rw [h])
    | some y =>
      simp [jsMaxIdx] at h
      rcases Nat.le_total x y with hxy | hxy
      · rw [Nat.max_eq_right hxy] at h
        exact Or.inr (by rw [h])
      · rw [Nat.max_eq_left hxy] at h
        exact Or.inl (by rw [h])

/-- The first-occurrence index really is a match position. -/
theorem indexOfPat_spec (ci : Bool) (pat l : List Char) (i : Nat)
    (h : indexOfPat ci pat l = some i) :
    startsWithAux ci pat (l.drop i) = true := by
  induction l generalizing i with
  | nil =>
    rw [indexOfPat] at h
    by_cases hs : startsWithAux ci pat [] = true
    · rw [if_pos hs] at h
      cases h
      simpa using hs
    · rw [if_neg hs] at h
      cases h
  | cons c rest ih =>
    rw [indexOfPat] at h
    by_cases hs : startsWithAux ci pat (c :: rest) = true
    · rw [if_pos hs] at h
      cases h
      simpa using hs
    · rw [if_neg hs] at h
      cases hr : indexOfPat ci pat rest with
      | none => rw [hr] at h; cases h
      | some k =>
        rw [hr] at h
        simp at h
        rw [← h]
        simpa using ih k hr

/-- The last-occurrence index really is a match position. -/
theorem lastIndexOfPat_spec (ci : Bool) (pat l : List Char) (i : Nat)
    (h : lastIndexOfPat ci pat l = some i) :
    startsWithAux ci pat (l.drop i) = true := by
  induction l generalizing i with
  | nil =>
    rw [lastIndexOfPat] at h
    by_cases hs : startsWithAux ci pat [] = true
    · rw [if_pos hs] at h
      cases h
      simpa using hs
    · rw [if_neg hs] at h
      cases h
  | cons c rest ih =>
    rw [lastIndexOfPat] at h
    cases hr : lastIndexOfPat ci pat rest with
    | some k =>
      rw [hr] at h
      simp at h
      rw [← h]
      simpa using ih k hr
    | none =>
      rw [hr] at h
      by_cases hs : startsWithAux ci pat (c :: rest) = true
      · rw [if_pos hs] at h
        cases h
        simpa using hs
      · rw [if_neg hs] at h
        cases h

/-- C9 (amended).  `sanitizeFileContent` extracts the HTML document span —
taking precedence over any fenced code blocks, since the fenced-code path is
never consulted (the expected language is universally quantified and no
assumption is made about fences) — exactly when, on the lower-cased
sanitized text, the *larger* of the first `<!doctype` and first `<html`
indices lies strictly before the *last* `</html>` index; the result is then
the trimmed slice of the sanitized text from that start index to the end of
the last closing tag.  (The original claim's weaker hypothesis — some start
marker before some end marker — is refuted by `htmlMarkerOrderCounterexample`.) -/
theorem htmlDocumentPrecedence (raw : String) (lang : Option String) (i j : Nat)
    (hraw : ¬ raw = "")
    (hstart : jsMaxIdx
        (indexOfPat false doctypeTok ((sanitizeAssistantTextL raw.data).map Char.toLower))
        (indexOfPat false htmlOpenTok ((sanitizeAssistantTextL raw.data).map Char.toLower))
      = some i)
    (hend : lastIndexOfPat false htmlCloseTok
        ((sanitizeAssistantTextL raw.data).map Char.toLower) = some j)
    (hij : i < j) :
    sanitizeFileContent raw lang =
      String.mk (jsTrim (((sanitizeAssistantTextL raw.data).drop i).take
        (j + htmlCloseTok.length - i))) := by
  set t := sanitizeAssistantTextL raw.data with ht
  have hlt : (t.map Char.toLower).drop i = '<' :: (t.map Char.toLower).drop (i + 1) := by
    rcases jsMaxIdx_cases _ _ i hstart with hcase | hcase
    · have hsw := indexOfPat_spec false doctypeTok _ i hcase
      rw [show doctypeTok = '<' :: "!doctype".data from rfl] at hsw
      exact startsWith_drop_cons '<' _ _ i hsw
    · have hsw := indexOfPat_spec false htmlOpenTok _ i hcase
      rw [show htmlOpenTok = '<' :: "html".data from rfl] at hsw
      exact startsWith_drop_cons '<' _ _ i hsw
  rw [← List.map_drop] at hlt
  obtain ⟨x, xs, hx, hxl⟩ : ∃ x xs, t.drop i = x :: xs ∧ Char.toLower x = '<' := by
    cases hd : t.drop i with
    | nil => rw [hd] at hlt; simp at hlt
    | cons x xs =>
      rw [hd] at hlt
      simp at hlt
      exact ⟨x, xs, rfl, hlt.1⟩
  have hws : jsWhitespace x = false := not_ws_of_toLower_lt x hxl
  have hn1 : j + htmlCloseTok.length - i = (j + htmlCloseTok.length - i - 1) + 1 := by
    have hle : i < j + htmlCloseTok.length := Nat.lt_of_lt_of_le hij (Nat.le_add_right _ _)
    omega
  have hslice : (t.drop i).take (j + htmlCloseTok.length - i)
      = x :: xs.take (j + htmlCloseTok.length - i - 1) := by
    rw [hx]
    conv_lhs => rw [hn1]
    rfl
  have htrim : jsTrim ((t.drop i).take (j + htmlCloseTok.length - i)) ≠ [] := by
    rw [hslice]
    exact jsTrim_cons_ne_nil x _ hws
  have hdoc : extractHtmlDocument t
      = some (jsTrim ((t.drop i).take (j + htmlCloseTok.length - i))) := by
    simp only [extractHtmlDocument]
    rw [hstart, hend]
    simp [hij]
  have hfc : fileContentChoice t (lang.map String.data)
      = jsTrim ((t.drop i).take (j + htmlCloseTok.length - i)) := by
    simp only [fileContentChoice]
    rw [hdoc]
    cases he : jsTrim ((t.drop i).take (j + htmlCloseTok.length - i)) with
    | nil => exact absurd he htrim
    | cons y ys => simp
  rw [sanitizeFileContent, if_neg hraw, ← ht]
  show String.mk (fileContentChoice t (Option.map String.data lang)) = _
  rw [hfc]

/-- Witness for the amended C9: an input holding both a fenced code block
and an HTML document; the HTML span wins. -/
theorem htmlDocumentPrecedence_witness :
    sanitizeFileContent "```html\nA\n```<html>B</html>" (some "py") =
      String.mk (jsTrim (((sanitizeAssistantTextL
        "```html\nA\n```<html>B</html>".data).drop 13).take
          (20 + htmlCloseTok.length - 13))) :=
  htmlDocumentPrecedence "```html\nA\n```<html>B</html>" (some "py") 13 20
    (by decide) (by decide) (by decide) (by decide)

/-- C10 counterexample.  `sanitizeAssistantText` is not idempotent: in
`"<think<thinking>ing>"` removing the inner `<thinking>` splices the
surrounding text into a fresh `<thinking>` token, which only a second pass
removes. -/
theorem sanitizeNotIdempotent :
    sanitizeAssistantText "<think<thinking>ing>" = "<thinking>"
    ∧ sanitizeAssistantText (sanitizeAssistantText "<think<thinking>ing>") = ""
    ∧ ¬ sanitizeAssistantText (sanitizeAssistantText "<think<thinking>ing>")
        = sanitizeAssistantText "<think<thinking>ing>" := by
  decide

/-- Text containing none of the artifacts the sanitizer strips: no channel
token, no start-header token, no leading analysis/thinking prompt, and no
literal thinking tags. -/
def artifactFree (t : List Char) : Bool :=
  !(containsChannelToken t)
  && !(containsPat true startHeaderTok t)
  && (matchAnalysisPrompt t).isNone
  && !(containsPat false thinkingOpenTok t)
  && !(containsPat false thinkingCloseTok t)

/-- No occurrence anywhere implies no match at the head. -/
theorem startsWith_of_containsPat_false (ci : Bool) (pat t : List Char)
    (h : containsPat ci pat t = false) : startsWithAux ci pat t = false := by
  cases t with
  | nil => exact h
  | cons c rest =>
    rw [containsPat] at h
    exact (Bool.or_eq_false_iff.mp h).1

/-- No occurrence anywhere persists to the tail. -/
theorem containsPat_tail (ci : Bool) (pat : List Char) (c : Char) (rest : List Char)
    (h : containsPat ci pat (c :: rest) = false) : containsPat ci pat rest = false := by
  rw [containsPat] at h
  exact (Bool.or_eq_false_iff.mp h).2

/-- No token matches the empty text. -/
theorem matchTokenIn_nil (L : List (List Char)) : matchTokenIn L [] = none := by
  induction L with
  | nil => rfl
  | cons w ws ih => simpa [matchTokenIn, startsWithAux] using ih

/-- When no channel token occurs, none matches at the head. -/
theorem matchTokenIn_of_noChannel (t : List Char)
    (h : containsChannelToken t = false) : matchTokenIn channelWords t = none := by
  cases t with
  | nil => exact matchTokenIn_nil channelWords
  | cons c rest =>
    rw [containsChannelToken] at h
    have := (Bool.or_eq_false_iff.mp h).1
    cases hm : matchTokenIn channelWords (c :: rest) with
    | none => rfl
    | some k => rw [hm] at this; cases this

/-- Channel-token freeness passes to the tail. -/
theorem noChannel_tail (c : Char) (rest : List Char)
    (h : containsChannelToken (c :: rest) = false) : containsChannelToken rest = false := by
  rw [containsChannelToken] at h
  exact (Bool.or_eq_false_iff.mp h).2

/-- No alternative of a token list matches when the whole match fails. -/
theorem startsWith_token_of_matchTokenIn_none (L : List (List Char)) (w t : List Char)
    (hw : w ∈ L) (h : matchTokenIn L t = none) :
    startsWithAux true ('<' :: '|' :: (w ++ ['|', '>'])) t = false := by
  induction L with
  | nil => cases hw
  | cons v vs ih =>
    rw [matchTokenIn] at h
    by_cases hv : startsWithAux true ('<' :: '|' :: (v ++ ['|', '>'])) t = true
    · rw [if_pos hv] at h; cases h
    · rw [if_neg hv] at h
      rcases List.mem_cons.mp hw with rfl | hw2
      · simpa using hv
      · exact ih hw2 h

/-- A channel-token-free text is fixed by the anchored channel-run strip. -/
theorem stripChannelRunF_id (fuel : Nat) (t : List Char)
    (h : containsChannelToken t = false) : stripChannelRunF fuel t = t := by
  cases fuel with
  | zero => rfl
  | succ fuel => rw [stripChannelRunF, matchTokenIn_of_noChannel t h]

/-- A header-token-free text is fixed by the header-block strip. -/
theorem replaceLeadingHeaderBlock_id (t : List Char)
    (h : containsPat true startHeaderTok t = false) :
    replaceLeadingHeaderBlock t = t := by
  rw [replaceLeadingHeaderBlock]
  rw [startsWith_of_containsPat_false true startHeaderTok t h]
  simp

/-- One artifact-free pass of the leading-pattern loop changes nothing. -/
theorem stripLeadingOnce_id (t : List Char)
    (h1 : containsChannelToken t = false)
    (h2 : containsPat true startHeaderTok t = false)
    (h3 : (matchAnalysisPrompt t).isNone = true) :
    stripLeadingOnce t = t := by
  rw [stripLeadingOnce, replaceLeadingChannelRun, stripChannelRunF_id t.length t h1,
    replaceLeadingHeaderBlock_id t h2, replaceLeadingAnalysisPrompt,
    Option.isNone_iff_eq_none.mp h3]
  rfl

/-- The leading-artifact loop is the identity on an artifact-free text. -/
theorem stripLeadingArtifacts_id (t : List Char)
    (h1 : containsChannelToken t = false)
    (h2 : containsPat true startHeaderTok t = false)
    (h3 : (matchAnalysisPrompt t).isNone = true) :
    stripLeadingArtifacts t = t := by
  rw [stripLeadingArtifacts, stripLeadingLoop, stripLeadingOnce_id t h1 h2 h3]
  simp

/-- A text without the literal `<thinking>` is fixed by the opening-tag strip. -/
theorem stripThinkOpenF_id (fuel : Nat) (t : List Char)
    (h : containsPat false thinkingOpenTok t = false) :
    stripThinkOpenF fuel t = t := by
  induction fuel generalizing t with
  | zero => rfl
  | succ fuel ih =>
    cases t with
    | nil => rfl
    | cons c rest =>
      rw [stripThinkOpenF]
      rw [startsWith_of_containsPat_false false thinkingOpenTok (c :: rest) h]
      simp only [Bool.false_eq_true, if_false]
      rw [ih rest (containsPat_tail false thinkingOpenTok c rest h)]

/-- A text without the literal `</thinking>` is fixed by the closing-tag strip. -/
theorem stripThinkCloseF_id (fuel : Nat) (t : List Char)
    (h : containsPat false thinkingCloseTok t = false) :
    stripThinkCloseF fuel t = t := by
  induction fuel generalizing t with
  | zero => rfl
  | succ fuel ih =>
    cases t with
    | nil => rfl
    | cons c rest =>
      have htail := containsPat_tail false thinkingCloseTok c rest h
      rw [stripThinkCloseF]
      rw [startsWith_of_containsPat_false false thinkingCloseTok rest htail,
        startsWith_of_containsPat_false false thinkingCloseTok (c :: rest) h]
      simp only [Bool.and_false, Bool.false_eq_true, if_false]
      rw [ih rest htail]

/-- A channel-token-free text is fixed by the `<|im_start|>…` strip. -/
theorem stripImStartF_id (fuel : Nat) (t : List Char)
    (h : containsChannelToken t = false) : stripImStartF fuel t = t := by
  induction fuel generalizing t with
  | zero => rfl
  | succ fuel ih =>
    cases t with
    | nil => rfl
    | cons c rest =>
      have hm := matchTokenIn_of_noChannel (c :: rest) h
      have hs := startsWith_token_of_matchTokenIn_none channelWords "im_start".data
        (c :: rest) (by decide) hm
      rw [stripImStartF]
      rw [show imStartTok = '<' :: '|' :: ("im_start".data ++ ['|', '>']) from rfl, hs]
      simp only [Bool.false_eq_true, if_false]
      rw [ih rest (noChannel_tail c rest h)]

/-- A channel-token-free text is fixed by the `<|im_end|>` strip. -/
theorem stripImEndF_id (fuel : Nat) (t : List Char)
    (h : containsChannelToken t = false) : stripImEndF fuel t = t := by
  induction fuel generalizing t with
  | zero => rfl
  | succ fuel ih =>
    cases t with
    | nil => rfl
    | cons c rest =>
      have hm := matchTokenIn_of_noChannel (c :: rest) h
      have hs := startsWith_token_of_matchTokenIn_none channelWords "im_end".data
        (c :: rest) (by decide) hm
      rw [stripImEndF]
      rw [show imEndTok = '<' :: '|' :: ("im_end".data ++ ['|', '>']) from rfl, hs]
      simp only [Bool.false_eq_true, if_false]
      rw [ih rest (noChannel_tail c rest h)]

/-- A channel-token-free text is fixed by the lingering-channel-token strip. -/
theorem stripChannelTokensF_id (fuel : Nat) (t : List Char)
    (h : containsChannelToken t = false) : stripChannelTokensF fuel t = t := by
  induction fuel generalizing t with
  | zero => rfl
  | succ fuel ih =>
    cases t with
    | nil => rfl
    | cons c rest =>
      rw [stripChannelTokensF, matchTokenIn_of_noChannel (c :: rest) h]
      rw [ih rest (noChannel_tail c rest h)]

/-- The whole sanitizer core fixes every artifact-free text. -/
theorem sanitizeAssistantTextL_id (t : List Char) (h : artifactFree t = true) :
    sanitizeAssistantTextL t = t := by
  rw [artifactFree] at h
  simp only [Bool.and_eq_true, Bool.not_eq_true'] at h
  obtain ⟨⟨⟨⟨h1, h2⟩, h3⟩, h4⟩, h5⟩ := h
  have hA : stripLeadingArtifacts t = t := stripLeadingArtifacts_id t h1 h2 h3
  have hB : stripThinkingTags t = t := by
    rw [stripThinkingTags, stripThinkOpenF_id t.length t h4, stripThinkCloseF_id t.length t h5]
  have hC : stripInlineChatMl t = t := by
    simp only [stripInlineChatMl]
    rw [stripImStartF_id t.length t h1, stripImEndF_id t.length t h1,
      stripChannelTokensF_id t.length t h1]
  rw [sanitizeAssistantTextL, hA, hB, hC]

/-- C10 (amended).  `sanitizeAssistantText` is not idempotent in general
(see `sanitizeNotIdempotent`: stripping can splice adjacent text into a new
artifact token); it is idempotent on every input whose first sanitization is
artifact-free — contains no channel token, no header token, no leading
analysis/thinking prompt and no literal thinking tags — which covers every
text the strips leave no freshly assembled token in. -/
theorem sanitizeIdempotentOnCleanOutput (s : String)
    (h : artifactFree (sanitizeAssistantText s).data = true) :
    sanitizeAssistantText (sanitizeAssistantText s) = sanitizeAssistantText s := by
  by_cases hz : sanitizeAssistantText s = ""
  · rw [hz]
    rfl
  · rw [sanitizeAssistantText, if_neg hz, sanitizeAssistantTextL_id _ h]

/-- Witness for the amended C10: a leading channel token is stripped and the
result is artifact-free, so a second sanitization changes nothing. -/
theorem sanitizeIdempotentOnCleanOutput_witness :
    sanitizeAssistantText (sanitizeAssistantText "<|analysis|>hello")
      = sanitizeAssistantText "<|analysis|>hello" :=
  sanitizeIdempotentOnCleanOutput "<|analysis|>hello" (by decide)
